import Mathlib

/-!
Verification of the Kwartiwi P1 firmware core (shallow embedding).

The C sources are embedded as executable Lean definitions:
* bytes are `ℕ` (values < 256 where it matters, stated as hypotheses);
* `time_t` is `ℤ`; machine-integer wrap-around is written as explicit `% 2^w`;
* C `float` arithmetic is modelled by exact rationals `ℚ`, wrapped in
  `Option ℚ` where a non-finite IEEE result (NaN / infinity) can arise:
  `none` marks such a non-finite value and propagates through every
  operation, and division by an exact zero yields `none`.  IEEE rounding
  is not modelled;
* `localtime`/`mktime` are modelled for the UTC time zone (civil-time
  decomposition by floor division), which is the standard proleptic
  Gregorian conversion the C library performs.
-/

namespace Kwartiwi

/-- Bytes of a string literal, for writing OBIS prefixes and test data. -/
def strBytes (s : String) : List ℕ := s.toList.map (fun c => c.toNat)

/-- ASCII decimal digit test, on a byte. -/
def isDigitB (d : ℕ) : Bool := 48 ≤ d && d ≤ 57

/-- Value of a list of ASCII digit bytes, most significant first
(the accumulation `strtoul`/`strtod` perform on the digit span). -/
def digitsVal (s : List ℕ) : ℕ := s.foldl (fun a d => a * 10 + (d - 48)) 0

/-- C cast of a signed 64-bit value to `uint32_t`: reduction mod `2^32`. -/
def u32 (z : ℤ) : ℕ := (z % 4294967296).toNat

/-- Model of a C `float` value: `some q` is the finite value `q` (exact,
rounding not modelled), `none` is a non-finite value (NaN or infinity). -/
def fadd : Option ℚ → Option ℚ → Option ℚ
  | some a, some b => some (a + b)
  | _, _ => none

/-- Float subtraction (see `fadd` for the model). -/
def fsub : Option ℚ → Option ℚ → Option ℚ
  | some a, some b => some (a - b)
  | _, _ => none

/-- Float multiplication (see `fadd` for the model). -/
def fmul : Option ℚ → Option ℚ → Option ℚ
  | some a, some b => some (a * b)
  | _, _ => none

/-- Float division: dividing by an exact zero produces a non-finite value
(NaN for 0/0, an infinity otherwise), modelled as `none`. -/
def fdiv : Option ℚ → Option ℚ → Option ℚ
  | some a, some b => if b = 0 then none else some (a / b)
  | _, _ => none

/-! ## CRC16 (`emucs_p1.c`, `crc16` / `check_telegram_crc`) -/

/-- One shift-register round of the C inner loop:
`crc = (crc & 1) ? (crc >> 1) ^ 0xa001 : (crc >> 1)`. -/
def crcRound (c : ℕ) : ℕ := if c % 2 = 1 then (c / 2) ^^^ 0xa001 else c / 2

/-- `crc16` from the source: start from 0, XOR each byte into the register
and run eight rounds of `crcRound`. -/
def crc16 (data : List ℕ) : ℕ :=
  data.foldl (fun crc b => crcRound^[8] (crc ^^^ b)) 0

/-- Modelled from the spec's CRC description, for comparison with the
source-translated `crc16`: a bit-at-a-time CRC with polynomial `0xA001`
(the reflected form of `0x8005`), initial value 0, no final XOR, bits of
each byte processed LSB-first: the feedback bit is the XOR of the
register's low bit with the incoming message bit. -/
def crcSpecBit (c : ℕ) (bit : ℕ) : ℕ :=
  if c % 2 ^^^ bit = 1 then (c / 2) ^^^ 0xa001 else c / 2

/-- The spec-level CRC over the first `k` bits of a byte `b` (LSB first). -/
def crcSpecBits (k : ℕ) (c : ℕ) (b : ℕ) : ℕ :=
  match k with
  | 0 => c
  | k + 1 => crcSpecBits k (crcSpecBit c (b % 2)) (b / 2)

/-- Spec-level CRC16 over a byte list (eight LSB-first bits per byte). -/
def crc16_spec (data : List ℕ) : ℕ :=
  data.foldl (fun crc b => crcSpecBits 8 crc b) 0

/-- `sprintf("%04X", n)` for `n < 0x10000`: the four ASCII bytes of `n`
in uppercase hexadecimal, zero padded. -/
def hexDigit (d : ℕ) : ℕ := if d < 10 then 48 + d else 55 + d

/-- Four-byte uppercase hexadecimal rendering (see `hexDigit`). -/
def hex4 (n : ℕ) : List ℕ :=
  [hexDigit (n / 4096 % 16), hexDigit (n / 256 % 16),
   hexDigit (n / 16 % 16), hexDigit (n % 16)]

/-- `check_telegram_crc`: CRC16 over the first `size - 6` bytes,
rendered as four uppercase hex digits and compared with the four bytes
at offset `size - 6`. -/
def check_telegram_crc (telegram : List ℕ) : Bool :=
  (telegram.drop (telegram.length - 6)).take 4 =
    hex4 (crc16 (telegram.take (telegram.length - 6)))

/-! ## Field extractors (`emucs_p1.c`) -/

/-- `get_string_between_chars`: the bytes strictly between the first
occurrence of `a` and the first occurrence of `b` after it; `none` when a
delimiter is missing; results of length `≥ maxSize` are truncated to
`maxSize - 1` bytes (the C copies into a `maxSize` buffer).  Model note:
the delimiters used by the program are always distinct (`'('`/`')'` or
`'('`/`'*'`). -/
def get_string_between_chars (src : List ℕ) (a b : ℕ) (maxSize : ℕ) :
    Option (List ℕ) :=
  match src.dropWhile (· ≠ a) with
  | [] => none
  | _ :: rest =>
      if b ∈ rest then
        let seg := rest.takeWhile (· ≠ b)
        some (if maxSize ≤ seg.length then seg.take (maxSize - 1) else seg)
      else none

/-- `strtoul(s, _, 10)` on the target (32-bit `unsigned long`), modelled
for strings that start with their digit span: the value of the leading
digits, clamped at `ULONG_MAX = 2^32 - 1` on overflow; no digits yield 0.
(Leading white-space and an explicit sign are not modelled; the program
feeds it delimiter-extracted digit fields.) -/
def strtoul10 (s : List ℕ) : ℕ :=
  min (digitsVal (s.takeWhile isDigitB)) 4294967295

/-- `get_uint32_between_chars`: extract into an 11-byte buffer, convert
with `strtoul`, store through the `uint16_t result` variable (reduction
mod `2^16`), return widened to `uint32_t`; 0 when extraction fails. -/
def get_uint32_between_chars (src : List ℕ) (a b : ℕ) : ℕ :=
  match get_string_between_chars src a b 11 with
  | none => 0
  | some s => strtoul10 s % 65536

/-- `strtod`, modelled for plain decimal forms (optional sign, digits,
optional `'.'` and fraction digits) — the field format DSMR uses; no
digits at all yield 0.  Exponents and hexadecimal floats are not
modelled.  The value is exact (`ℚ`), IEEE rounding is not modelled. -/
def parseDecFloat (s : List ℕ) : ℚ :=
  let sr : ℚ × List ℕ :=
    match s with
    | 45 :: rest => (-1, rest)
    | 43 :: rest => (1, rest)
    | _ => (1, s)
  let ip := sr.2.takeWhile isDigitB
  let r2 := sr.2.dropWhile isDigitB
  let fp := match r2 with
    | 46 :: rest => rest.takeWhile isDigitB
    | _ => []
  sr.1 * ((digitsVal ip : ℚ) + (digitsVal fp : ℚ) / (10 ^ fp.length))

/-- `get_float_between_chars`: extract into a 20-byte buffer and convert
with `strtod`; 0 when extraction fails. -/
def get_float_between_chars (src : List ℕ) (a b : ℕ) : ℚ :=
  match get_string_between_chars src a b 20 with
  | none => 0
  | some s => parseDecFloat s

/-- Days since 1970-01-01 of the civil date `y-m-d` (proleptic Gregorian,
the conversion `mktime` performs for UTC); `m` is 1-based and is taken
in `[1, 12]`. -/
def days_from_civil (y m d : ℤ) : ℤ :=
  let y' := if m ≤ 2 then y - 1 else y
  let era := y' / 400
  let yoe := y' - era * 400
  let mp := (m + 9) % 12
  let doy := (153 * mp + 2) / 5 + d - 1
  let doe := yoe * 365 + yoe / 4 - yoe / 100 + doy
  era * 146097 + doe - 719468

/-- `mktime` on a zeroed `struct tm` with the given fields, modelled for
UTC: months are first normalised into years by floor division (as
`mktime` does), then the civil date is converted to an epoch count. -/
def mktime_model (tm_year tm_mon tm_mday tm_hour tm_min tm_sec : ℤ) : ℤ :=
  let months := (1900 + tm_year) * 12 + tm_mon
  days_from_civil (months / 12) (months % 12 + 1) tm_mday * 86400 +
    tm_hour * 3600 + tm_min * 60 + tm_sec

/-- `get_timestamp_between_chars`: extract into a 14-byte buffer, read
twelve `YYMMDDhhmmss` digit bytes by `c - '0'` arithmetic and convert
with `mktime`; 0 when extraction fails.  Bytes past the extracted text
are modelled as the buffer's NUL/zero fill. -/
def get_timestamp_between_chars (src : List ℕ) (a b : ℕ) : ℤ :=
  match get_string_between_chars src a b 14 with
  | none => 0
  | some s =>
      let d : ℕ → ℤ := fun i => (s.getD i 0 : ℤ) - 48
      mktime_model (d 0 * 10 + d 1 + 2000 - 1900) (d 2 * 10 + d 3 - 1)
        (d 4 * 10 + d 5) (d 6 * 10 + d 7) (d 8 * 10 + d 9) (d 10 * 10 + d 11)

/-! ## Telegram snapshot (`emucs_p1.h`, `emucs_p1_data_t`) -/

/-- One `max_demand` record (timestamp of appearance, demand in kW). -/
structure max_demand_t where
  timestamp : ℤ
  max_demand : ℚ
  deriving DecidableEq

/-- The zero record a `memset` leaves behind. -/
def max_demand_zero : max_demand_t := ⟨0, 0⟩

/-- `emucs_p1_data_t`: the parsed current-telegram snapshot.  kW/kWh/V/A
readings are C floats, modelled as exact `ℚ`; `tariff_indicator` is a
`uint16_t`; `breaker_state` is the enum's integer value;
`max_demand_year` is the 13-slot array. -/
structure emucs_p1_data_t where
  version_info : List ℕ
  equipment_id : List ℕ
  msg_timestamp : ℤ
  electricity_delivered_tariff1 : ℚ
  electricity_delivered_tariff2 : ℚ
  electricity_returned_tariff1 : ℚ
  electricity_returned_tariff2 : ℚ
  tariff_indicator : ℕ
  current_avg_demand : ℚ
  max_demand_month : max_demand_t
  max_demand_year : List max_demand_t
  current_power_usage : ℚ
  current_power_return : ℚ
  current_power_usage_l1 : ℚ
  current_power_usage_l2 : ℚ
  current_power_usage_l3 : ℚ
  current_power_return_l1 : ℚ
  current_power_return_l2 : ℚ
  current_power_return_l3 : ℚ
  voltage_l1 : ℚ
  voltage_l2 : ℚ
  voltage_l3 : ℚ
  current_l1 : ℚ
  current_l2 : ℚ
  current_l3 : ℚ
  breaker_state : ℕ
  limiter_threshold : ℚ
  fuse_supervision_threshold : ℚ
  deriving DecidableEq

/-- The all-zero snapshot `memset(&p1_telegram, 0, ...)` produces. -/
def p1_zero : emucs_p1_data_t :=
  ⟨[], [], 0, 0, 0, 0, 0, 0, 0, max_demand_zero,
   List.replicate 13 max_demand_zero,
   0, 0, 0, 0, 0, 0, 0, 0, 0, 0, 0, 0, 0, 0, 0, 0, 0⟩

/-- `strncmp(line, needle, strlen(needle)) == 0` (`starts_with`). -/
def starts_with (line needle : List ℕ) : Bool := needle.isPrefixOf line

/-- `strchr(l, c)` followed by `+ 1`: the suffix just after the first
occurrence of `c`; `none` when `c` does not occur (where the C would
apply `+ 1` to a null pointer and crash on the following access). -/
def after_char (l : List ℕ) (c : ℕ) : Option (List ℕ) :=
  match l.dropWhile (· ≠ c) with
  | [] => none
  | _ :: rest => some rest

/-- The `0-0:98.1.0` entry loop of `parse_telegram`: for each of `n`
entries, skip past two `')'` groups, read a timestamp group, skip past
it, read a float group, and store at index `i`.  Writes at index `≥ 13`
(where the C would overrun `max_demand_year[13]`) are dropped, and a
missing `')'` (where the C would dereference `NULL + 1`) stops the
loop. -/
def parse_max_demand_year (n : ℕ) (i : ℕ) (next : List ℕ)
    (arr : List max_demand_t) : List max_demand_t :=
  match n with
  | 0 => arr
  | m + 1 =>
      match after_char next 41 with
      | none => arr
      | some n1 =>
          match after_char n1 41 with
          | none => arr
          | some n2 =>
              let ts := get_timestamp_between_chars n2 40 41
              match after_char n2 41 with
              | none => arr
              | some n3 =>
                  let md := get_float_between_chars n3 40 42
                  parse_max_demand_year m (i + 1) n3 (arr.set i ⟨ts, md⟩)

/-- One iteration of the `strtok` line loop of `parse_telegram`: the
`else if` dispatch on the OBIS prefix of `line`, updating the scratch
snapshot.  Unknown lines leave it unchanged. -/
def update_line (p1 : emucs_p1_data_t) (line : List ℕ) : emucs_p1_data_t :=
  if starts_with line (strBytes ("0-0:96.1.4")) then
    match get_string_between_chars line 40 41 6 with
    | some s => { p1 with version_info := s }
    | none => p1
  else if starts_with line (strBytes ("0-0:96.1.1")) then
    match get_string_between_chars line 40 41 97 with
    | some s => { p1 with equipment_id := s }
    | none => p1
  else if starts_with line (strBytes ("0-0:1.0.0")) then
    { p1 with msg_timestamp := get_timestamp_between_chars line 40 41 }
  else if starts_with line (strBytes ("1-0:1.8.1")) then
    { p1 with electricity_delivered_tariff1 := get_float_between_chars line 40 42 }
  else if starts_with line (strBytes ("1-0:1.8.2")) then
    { p1 with electricity_delivered_tariff2 := get_float_between_chars line 40 42 }
  else if starts_with line (strBytes ("1-0:2.8.1")) then
    { p1 with electricity_returned_tariff1 := get_float_between_chars line 40 42 }
  else if starts_with line (strBytes ("1-0:2.8.2")) then
    { p1 with electricity_returned_tariff2 := get_float_between_chars line 40 42 }
  else if starts_with line (strBytes ("0-0:96.14.0")) then
    { p1 with tariff_indicator := get_uint32_between_chars line 40 41 % 65536 }
  else if starts_with line (strBytes ("1-0:1.4.0")) then
    { p1 with current_avg_demand := get_float_between_chars line 40 42 }
  else if starts_with line (strBytes ("1-0:1.6.0")) then
    let ts := get_timestamp_between_chars line 40 41
    match (line.dropWhile (· ≠ 41)) with
    | [] => { p1 with max_demand_month := { p1.max_demand_month with timestamp := ts } }
    | next =>
        { p1 with max_demand_month :=
            ⟨ts, get_float_between_chars next 40 42⟩ }
  else if starts_with line (strBytes ("0-0:98.1.0")) then
    let months_available := get_uint32_between_chars line 40 41 % 256
    match after_char line 41 with
    | none => p1
    | some n1 =>
        match after_char n1 41 with
        | none => p1
        | some n2 =>
            { p1 with max_demand_year :=
                parse_max_demand_year months_available 0 n2 p1.max_demand_year }
  else if starts_with line (strBytes ("1-0:1.7.0")) then
    { p1 with current_power_usage := get_float_between_chars line 40 42 }
  else if starts_with line (strBytes ("1-0:2.7.0")) then
    { p1 with current_power_return := get_float_between_chars line 40 42 }
  else if starts_with line (strBytes ("1-0:21.7.0")) then
    { p1 with current_power_usage_l1 := get_float_between_chars line 40 42 }
  else if starts_with line (strBytes ("1-0:41.7.0")) then
    { p1 with current_power_usage_l2 := get_float_between_chars line 40 42 }
  else if starts_with line (strBytes ("1-0:61.7.0")) then
    { p1 with current_power_usage_l3 := get_float_between_chars line 40 42 }
  else if starts_with line (strBytes ("1-0:22.7.0")) then
    { p1 with current_power_return_l1 := get_float_between_chars line 40 42 }
  else if starts_with line (strBytes ("1-0:42.7.0")) then
    { p1 with current_power_return_l2 := get_float_between_chars line 40 42 }
  else if starts_with line (strBytes ("1-0:62.7.0")) then
    { p1 with current_power_return_l3 := get_float_between_chars line 40 42 }
  else if starts_with line (strBytes ("1-0:32.7.0")) then
    { p1 with voltage_l1 := get_float_between_chars line 40 42 }
  else if starts_with line (strBytes ("1-0:52.7.0")) then
    { p1 with voltage_l2 := get_float_between_chars line 40 42 }
  else if starts_with line (strBytes ("1-0:72.7.0")) then
    { p1 with voltage_l3 := get_float_between_chars line 40 42 }
  else if starts_with line (strBytes ("1-0:31.7.0")) then
    { p1 with current_l1 := get_float_between_chars line 40 42 }
  else if starts_with line (strBytes ("1-0:51.7.0")) then
    { p1 with current_l2 := get_float_between_chars line 40 42 }
  else if starts_with line (strBytes ("1-0:71.7.0")) then
    { p1 with current_l3 := get_float_between_chars line 40 42 }
  else if starts_with line (strBytes ("0-0:96.3.10")) then
    { p1 with breaker_state := get_uint32_between_chars line 40 41 }
  else if starts_with line (strBytes ("0-0:17.0.0")) then
    { p1 with limiter_threshold := get_float_between_chars line 40 42 }
  else if starts_with line (strBytes ("1-0:31.4.0")) then
    { p1 with fuse_supervision_threshold := get_float_between_chars line 40 42 }
  else p1

/-- The bytes a C string sees: everything before the first NUL. -/
def cString (l : List ℕ) : List ℕ := l.takeWhile (· ≠ 0)

/-- Delimiter test of the `strtok(_, CRLF)` loop. -/
def isCrlf (b : ℕ) : Bool := b = 13 || b = 10

/-- Worker for `tokenize`: `acc` holds the (reversed) bytes of the run
being scanned. -/
def tokenizeAux : List ℕ → List ℕ → List (List ℕ)
  | [], acc => if acc = [] then [] else [acc.reverse]
  | b :: bs, acc =>
      if isCrlf b then
        if acc = [] then tokenizeAux bs []
        else acc.reverse :: tokenizeAux bs []
      else tokenizeAux bs (b :: acc)

/-- `strtok` with delimiter set `CRLF`: the maximal nonempty runs of
non-delimiter bytes, in order. -/
def tokenize (l : List ℕ) : List (List ℕ) := tokenizeAux l []

/-- The field-extraction part of `parse_telegram`: zero the scratch
snapshot, then dispatch each `strtok` line through `update_line`. -/
def parseFields (telegram : List ℕ) : emucs_p1_data_t :=
  (tokenize (cString telegram)).foldl update_line p1_zero

/-- `parse_telegram`: on a CRC16 failure the published snapshot is left
untouched; otherwise it is replaced by the freshly parsed record. -/
def parse_telegram (p1 : emucs_p1_data_t) (telegram : List ℕ) :
    emucs_p1_data_t :=
  if check_telegram_crc telegram then parseFields telegram else p1

/-- Observable actions of the parser on the shared state. -/
inductive PAction where
  | commit (d : emucs_p1_data_t)
  | edge
  deriving DecidableEq

/-- Modelled from the spec: the "telegram available" event signalling is
declared in `emucs_p1.h` (`emucs_p1_get_event_group_handle`,
`EMUCS_P1_EVENT_TELEGRAM_AVAILABLE_BIT`) and awaited by `logger_task`,
but the definition that raises the event bit is not among the given
sources; per the spec (§4.2 step 3) a successful parse commits the
snapshot under the lock and then signals "telegram available".  This
wraps the source-translated `parse_telegram` with that action trace:
on CRC success the commit happens and then the edge fires; on failure
neither occurs. -/
def parse_telegram_step (p1 : emucs_p1_data_t) (telegram : List ℕ) :
    emucs_p1_data_t × List PAction :=
  let p1' := parse_telegram p1 telegram
  (p1', if check_telegram_crc telegram then [.commit p1', .edge] else [])

/-- Feed a list of assembled telegrams through the parser, collecting
the action trace. -/
def parserRun (p1 : emucs_p1_data_t) :
    List (List ℕ) → emucs_p1_data_t × List PAction
  | [] => (p1, [])
  | t :: ts =>
      ((parserRun (parse_telegram_step p1 t).1 ts).1,
        (parse_telegram_step p1 t).2 ++ (parserRun (parse_telegram_step p1 t).1 ts).2)

/-! ## Frame assembler (`emucs_p1.c`, `process_p1_data`) -/

/-- The framing states of `process_p1_data`
(`P1_STATE_IDLE` / `P1_STATE_DATA` / `P1_STATE_END`). -/
inductive P1State where
  | idle
  | data
  | fin
  deriving DecidableEq

/-- The assembler's persistent (`static`) variables: the framing state,
the filled prefix `uart_buffer[0 .. uart_buffer_index)` of the working
buffer, and `telegram_start` as an index into it (meaningful outside
`idle`). -/
structure P1Buf where
  st : P1State
  buf : List ℕ
  tstart : ℕ
  deriving DecidableEq

/-- The assembler's initial / reset state. -/
def p1_buf_init : P1Buf := ⟨.idle, [], 0⟩

/-- One iteration of the scanning loop of `process_p1_data`, for the
byte `b` just appended at position `s.buf.length`:
* `idle`: a `'/'` starts a telegram at the current position;
* `data`: a `'!'` moves to the end state;
* `fin`: on `'\n'` preceded by `'\r'`, overwrite the `'\n'` with NUL and
  hand the slice `[telegram_start, position]` to the parser.
Returns the new state and the telegrams handed over. -/
def p1_step (s : P1Buf) (b : ℕ) : P1Buf × List (List ℕ) :=
  let p := s.buf.length
  let buf1 := s.buf ++ [b]
  match s.st with
  | .idle => if b = 47 then (⟨.data, buf1, p⟩, []) else (⟨.idle, buf1, s.tstart⟩, [])
  | .data => if b = 33 then (⟨.fin, buf1, s.tstart⟩, []) else (⟨.data, buf1, s.tstart⟩, [])
  | .fin =>
      if (s.buf.getLast?.getD 0 = 13 ∧ b = 10) then
        let buf2 := buf1.set p 0
        (⟨.idle, buf2, s.tstart⟩, [buf2.drop s.tstart])
      else (⟨.fin, buf1, s.tstart⟩, [])

/-- The scanning loop of `process_p1_data` over the bytes of one event. -/
def p1_run (s : P1Buf) : List ℕ → P1Buf × List (List ℕ)
  | [] => (s, [])
  | b :: bs =>
      ((p1_run (p1_step s b).1 bs).1,
        (p1_step s b).2 ++ (p1_run (p1_step s b).1 bs).2)

/-- The tail of `process_p1_data`: when the event leaves the machine in
the data state with `telegram_start` off the buffer base, move
`[telegram_start, uart_buffer_index)` down to the base. -/
def p1_compact (s : P1Buf) : P1Buf :=
  if s.st = .data ∧ s.tstart ≠ 0 then ⟨.data, s.buf.drop s.tstart, 0⟩ else s

/-- `process_p1_data` for one UART event carrying `chunk`: if the event
does not fit the 1500-byte working buffer, reset everything and drop the
event (the C returns before reading, leaving the bytes unconsumed);
otherwise scan the bytes and compact. -/
def process_p1_data (s : P1Buf) (chunk : List ℕ) : P1Buf × List (List ℕ) :=
  if 1500 < s.buf.length + chunk.length then (p1_buf_init, [])
  else (p1_compact (p1_run s chunk).1, (p1_run s chunk).2)

/-- The reader task's event loop (`emucs_p1_task`): deliver the byte
`stream` as successive `UART_DATA` events of the given `sizes`.  Each
event reads its bytes from the driver FIFO at the running cursor; an
event rejected by the buffer check consumes nothing. -/
def p1_next_cursor (stream : List ℕ) (s : P1Buf) (cur size : ℕ) : ℕ :=
  if 1500 < s.buf.length + ((stream.drop cur).take size).length then cur
  else cur + ((stream.drop cur).take size).length

def p1_events (stream : List ℕ) : P1Buf → ℕ → List ℕ → P1Buf × List (List ℕ)
  | s, _, [] => (s, [])
  | s, cur, size :: rest =>
      ((p1_events stream (process_p1_data s ((stream.drop cur).take size)).1
          (p1_next_cursor stream s cur size) rest).1,
        (process_p1_data s ((stream.drop cur).take size)).2 ++
          (p1_events stream (process_p1_data s ((stream.drop cur).take size)).1
            (p1_next_cursor stream s cur size) rest).2)

/-- Telegrams assembled from `stream` delivered as events of the given
`sizes`, starting from the reset assembler. -/
def assembled (stream : List ℕ) (sizes : List ℕ) : List (List ℕ) :=
  (p1_events stream p1_buf_init 0 sizes).2

/-- The full data plane for one delivery schedule: assemble telegrams
and feed each to the parser, collecting the parser's action trace. -/
def p1_pipeline (stream : List ℕ) (sizes : List ℕ) : List PAction :=
  (parserRun p1_zero (assembled stream sizes)).2

/-- Abstract assembler state: the framing state together with the bytes
of the telegram being collected (empty in `idle`).  This forgets the
buffer layout (junk before `telegram_start`, compaction), which the
byte-level scan never looks at. -/
structure P1Abs where
  st : P1State
  tg : List ℕ
  deriving DecidableEq

/-- Abstract counterpart of `p1_step`. -/
def a_step (s : P1Abs) (b : ℕ) : P1Abs × List (List ℕ) :=
  match s.st with
  | .idle => if b = 47 then (⟨.data, [47]⟩, []) else (s, [])
  | .data => if b = 33 then (⟨.fin, s.tg ++ [b]⟩, []) else (⟨.data, s.tg ++ [b]⟩, [])
  | .fin =>
      if (s.tg.getLast?.getD 0 = 13 ∧ b = 10) then (⟨.idle, []⟩, [s.tg ++ [0]])
      else (⟨.fin, s.tg ++ [b]⟩, [])

/-- Abstract run over a byte list. -/
def a_run (s : P1Abs) : List ℕ → P1Abs × List (List ℕ)
  | [] => (s, [])
  | b :: bs =>
      ((a_run (a_step s b).1 bs).1,
        (a_step s b).2 ++ (a_run (a_step s b).1 bs).2)

/-- Abstraction of a concrete assembler state. -/
def absOf (s : P1Buf) : P1Abs :=
  ⟨s.st, if s.st = .idle then [] else s.buf.drop s.tstart⟩

/-! ## Logger (`logger.c`) -/

/-- `log_entry_short_term_p1_data_t`. -/
structure log_entry_short_term_p1_data_t where
  timestamp : ℤ
  current_avg_demand : ℚ
  current_power_usage : ℚ
  deriving DecidableEq

/-- The zero entry the `static` ring starts out filled with. -/
def st_entry_zero : log_entry_short_term_p1_data_t := ⟨0, 0, 0⟩

/-- `log_entry_long_term_p1_data_t`: the four readings hold the values
of `(uint16_t)(kWh * 1000)` casts (integers, carried by C floats). -/
structure log_entry_long_term_p1_data_t where
  timestamp : ℤ
  electricity_delivered_tariff1 : ℕ
  electricity_delivered_tariff2 : ℕ
  electricity_returned_tariff1 : ℕ
  electricity_returned_tariff2 : ℕ
  deriving DecidableEq

/-- The zero entry the `static` long-term ring starts out filled with. -/
def lt_entry_zero : log_entry_long_term_p1_data_t := ⟨0, 0, 0, 0, 0⟩

/-- `LOGGER_SHORT_TERM_LOG_SIZE = (60 * 15 * 1000) / 1000`. -/
def LOGGER_SHORT_TERM_LOG_SIZE : ℕ := 900

/-- The short-term ring: buffer, head index (next slot to write) and
saturating item count. -/
structure ShortTermLog where
  buf : List log_entry_short_term_p1_data_t
  head : ℕ
  count : ℕ
  deriving DecidableEq

/-- The zeroed `static` short-term ring. -/
def short_term_log_init : ShortTermLog :=
  ⟨List.replicate LOGGER_SHORT_TERM_LOG_SIZE st_entry_zero, 0, 0⟩

/-- `add_short_term_log_entry`: write at `head`, advance `head` mod the
capacity, saturate the count at the capacity. -/
def add_short_term_log_entry (st : ShortTermLog)
    (entry : log_entry_short_term_p1_data_t) : ShortTermLog :=
  { buf := st.buf.set st.head entry,
    head := (st.head + 1) % LOGGER_SHORT_TERM_LOG_SIZE,
    count := if st.count < LOGGER_SHORT_TERM_LOG_SIZE then st.count + 1 else st.count }

/-- `logger_get_short_term_log_items`: copy `min(max_items, count)`
entries in chronological order, starting at
`(SIZE + head - n) % SIZE`. -/
def logger_get_short_term_log_items (st : ShortTermLog) (max_items : ℕ) :
    List log_entry_short_term_p1_data_t :=
  let n := min max_items st.count
  let tail_index := (LOGGER_SHORT_TERM_LOG_SIZE + st.head - n) % LOGGER_SHORT_TERM_LOG_SIZE
  (List.range n).map (fun i =>
    st.buf.getD ((tail_index + i) % LOGGER_SHORT_TERM_LOG_SIZE) st_entry_zero)

/-- The long-term ring.  `LOGGER_LONG_TERM_LOG_BUF_SIZE` is defined in a
header not among the given sources (the spec fixes it only as ≥ 96), so
the capacity is a parameter of the operations below. -/
structure LongTermLog where
  buf : List log_entry_long_term_p1_data_t
  head : ℕ
  count : ℕ
  deriving DecidableEq

/-- The zeroed `static` long-term ring of capacity `cap`. -/
def long_term_log_init (cap : ℕ) : LongTermLog :=
  ⟨List.replicate cap lt_entry_zero, 0, 0⟩

/-- `add_long_term_log_entry` with capacity `cap`: read the head slot's
timestamp (substituting the entry's own when it is zero); when the
entry's quarter-hour bucket `timestamp / 900` (C truncating division) is
strictly newer, advance `head` and bump the saturating count; then write
the entry at `head`. -/
def add_long_term_log_entry (cap : ℕ) (st : LongTermLog)
    (entry : log_entry_long_term_p1_data_t) : LongTermLog :=
  let last_timestamp :=
    if (st.buf.getD st.head lt_entry_zero).timestamp = 0 then entry.timestamp
    else (st.buf.getD st.head lt_entry_zero).timestamp
  let st' :=
    if last_timestamp.tdiv 900 < entry.timestamp.tdiv 900 then
      { st with head := (st.head + 1) % cap,
                count := if st.count < cap then st.count + 1 else st.count }
    else st
  { st' with buf := st'.buf.set st'.head entry }

/-- `logger_get_long_term_log_items` with capacity `cap` (same ring-read
pattern as the short-term variant). -/
def logger_get_long_term_log_items (cap : ℕ) (st : LongTermLog)
    (max_items : ℕ) : List log_entry_long_term_p1_data_t :=
  let n := min max_items st.count
  let tail_index := (cap + st.head - n) % cap
  (List.range n).map (fun i => st.buf.getD ((tail_index + i) % cap) lt_entry_zero)

/-- The C cast `(uint16_t)` of a nonnegative float value: truncation
toward zero, then reduction mod `2^16` (the target converts through a
32-bit integer and narrows; values with `⌊q⌋ ≥ 2^31` or `q < 0` are
undefined behaviour in C and out of scope of the claims). -/
def cast_u16 (q : ℚ) : ℕ := (Int.toNat ⌊q⌋) % 65536

/-- `log_short_term_p1_data`: the short-term entry built from a
snapshot. -/
def log_short_term_p1_data (p1 : emucs_p1_data_t) :
    log_entry_short_term_p1_data_t :=
  ⟨p1.msg_timestamp, p1.current_avg_demand, p1.current_power_usage⟩

/-- `log_long_term_p1_date`: the long-term entry built from a snapshot;
each kWh reading is multiplied by 1000 and cast to `uint16_t`. -/
def log_long_term_p1_date (p1 : emucs_p1_data_t) :
    log_entry_long_term_p1_data_t :=
  ⟨p1.msg_timestamp,
   cast_u16 (p1.electricity_delivered_tariff1 * 1000),
   cast_u16 (p1.electricity_delivered_tariff2 * 1000),
   cast_u16 (p1.electricity_returned_tariff1 * 1000),
   cast_u16 (p1.electricity_returned_tariff2 * 1000)⟩

/-! ## Peak predictor (`predict_peak.c`) -/

/-- `struct predicted_peak_s` (a C float and a `time_t`). -/
structure predicted_peak_s where
  value : Option ℚ
  timestamp : ℤ
  deriving DecidableEq

/-- `localtime(t)->tm_min` for UTC. -/
def tm_min_of (t : ℤ) : ℤ := t / 60 % 60

/-- `localtime(t)->tm_sec` for UTC. -/
def tm_sec_of (t : ℤ) : ℤ := t % 60

/-- `get_timestamp_at_end_of_quarter_hour`: zero the seconds, round the
minutes up to the next multiple of 15 (always advancing), carry into the
hour when they reach 60, and convert back with `mktime`.  For UTC the
round trip through `struct tm` is the plain arithmetic below. -/
def get_timestamp_at_end_of_quarter_hour (timestamp : ℤ) : ℤ :=
  let sec := tm_sec_of timestamp
  let min := tm_min_of timestamp
  let min' := (min / 15 + 1) * 15
  let hour_start := timestamp - sec - min * 60
  if min' = 60 then hour_start + 3600 else hour_start + min' * 60

/-- Accumulators of the regression loop (`uint32_t` sums for the time
deltas, float sums for the demand series). -/
structure LRSums where
  sum_timestamp : ℕ
  sum_timestamp_squared : ℕ
  sum_current_avg_demand : ℚ
  sum_timestamp_current_avg_demand : ℚ

/-- The loop body of `predict_peak_linear_regression`:
`timestamp_val = (uint32_t)(t - t₀)` and the four accumulations (the
`uint32_t` sums wrap mod `2^32`). -/
def lr_step (t0 : ℤ) (a : LRSums) (e : log_entry_short_term_p1_data_t) : LRSums :=
  let tv := u32 (e.timestamp - t0)
  { sum_timestamp := (a.sum_timestamp + tv) % 4294967296,
    sum_timestamp_squared := (a.sum_timestamp_squared + tv * tv) % 4294967296,
    sum_current_avg_demand := a.sum_current_avg_demand + e.current_avg_demand,
    sum_timestamp_current_avg_demand :=
      a.sum_timestamp_current_avg_demand + (tv : ℚ) * e.current_avg_demand }

/-- The `slope` computation of `predict_peak_linear_regression`:
`(Σxy − Σx·ȳ) / (Σxx − Σx·x̄)` over the accumulated sums, with no guard
on the denominator (`x̄`, `ȳ` are the means `Σx/n`, `Σy/n`). -/
def lr_slope (log_entry : List log_entry_short_term_p1_data_t) : Option ℚ :=
  let t0 := (log_entry.headD st_entry_zero).timestamp
  let sums : LRSums := log_entry.foldl (lr_step t0) ⟨0, 0, 0, 0⟩
  let item_count := log_entry.length
  let timestamp_mean := fdiv (some (sums.sum_timestamp : ℚ)) (some (item_count : ℚ))
  let current_avg_demand_mean :=
    fdiv (some sums.sum_current_avg_demand) (some (item_count : ℚ))
  fdiv
    (fsub (some sums.sum_timestamp_current_avg_demand)
      (fmul (some (sums.sum_timestamp : ℚ)) current_avg_demand_mean))
    (fsub (some (sums.sum_timestamp_squared : ℚ))
      (fmul (some (sums.sum_timestamp : ℚ)) timestamp_mean))

/-- `predict_peak_linear_regression`: least squares of
`current_avg_demand` against `timestamp - timestamp₀` (a `uint32_t`
delta), the unguarded `lr_slope`, and prediction
`y_last + slope · (E - t_last)` at the end of the first entry's
quarter-hour. -/
def predict_peak_linear_regression
    (log_entry : List log_entry_short_term_p1_data_t) : predicted_peak_s :=
  let t0 := (log_entry.headD st_entry_zero).timestamp
  let end_timestamp := get_timestamp_at_end_of_quarter_hour t0
  let last := log_entry.getLast?.getD st_entry_zero
  { value := fadd (some last.current_avg_demand)
      (fmul (lr_slope log_entry) (some ((end_timestamp - last.timestamp : ℤ) : ℚ))),
    timestamp := end_timestamp }

/-- `predict_peak_weighted_average`: weights
`w_i = (uint32_t)(t_i - t_0 + 1)` (sum wrapping mod `2^32`), value
`Σ(wᵢ·pᵢ) / Σwᵢ` over `current_power_usage`, at the end of the first
entry's quarter-hour. -/
def wa_step (t0 : ℤ) (a : ℚ × ℕ) (e : log_entry_short_term_p1_data_t) : ℚ × ℕ :=
  let w := u32 (e.timestamp - t0 + 1)
  (a.1 + (w : ℚ) * e.current_power_usage, (a.2 + w) % 4294967296)

def predict_peak_weighted_average
    (log_entry : List log_entry_short_term_p1_data_t) : predicted_peak_s :=
  let t0 := (log_entry.headD st_entry_zero).timestamp
  let sums : ℚ × ℕ := log_entry.foldl (wa_step t0) (0, 0)
  let end_timestamp := get_timestamp_at_end_of_quarter_hour t0
  { value := fdiv (some sums.1) (some (sums.2 : ℚ)),
    timestamp := end_timestamp }

/-- `enum predict_peak_method_e`. -/
inductive predict_peak_method_e where
  | linear_regression
  | weighted_average
  deriving DecidableEq

/-- The alignment scan of `predict_peak_task`: the index of the first
entry whose timestamp sits on a quarter-hour boundary (minute divisible
by 15, second zero); the first entry (index 0) when none is found. -/
def first_entry_index (log_entry : List log_entry_short_term_p1_data_t) : ℕ :=
  match log_entry.findIdx? (fun e =>
    tm_min_of e.timestamp % 15 = 0 ∧ tm_sec_of e.timestamp = 0) with
  | some i => i
  | none => 0

/-- One body of the `predict_peak_task` loop, given the snapshot of the
short-term log it copied (the body only runs when more than one item is
present): run the configured method — linear regression on the entries
from the alignment index on, the weighted average on all entries. -/
def predict_peak_tick (log_entry : List log_entry_short_term_p1_data_t)
    (method : predict_peak_method_e) : predicted_peak_s :=
  match method with
  | .linear_regression =>
      predict_peak_linear_regression (log_entry.drop (first_entry_index log_entry))
  | .weighted_average => predict_peak_weighted_average log_entry

/-! ## Lemmas: CRC16 source/spec agreement -/

/-- Low bit of an XOR. -/
lemma xor_mod_two (a b : ℕ) : (a ^^^ b) % 2 = (a % 2) ^^^ (b % 2) := by
  rw [Nat.xor_mod_two_eq]
  rcases Nat.mod_two_eq_zero_or_one a with ha | ha <;>
    rcases Nat.mod_two_eq_zero_or_one b with hb | hb <;> simp [ha, hb] <;> omega

/-- Right shift distributes over XOR. -/
lemma xor_div_two (a b : ℕ) : (a ^^^ b) / 2 = (a / 2) ^^^ (b / 2) := by
  apply Nat.eq_of_testBit_eq
  intro i
  simp [Nat.testBit_div_two, Nat.testBit_xor]

/-- One source round on a register XOR-ed with pending message bits
equals one spec round on the lowest pending bit, with the remaining
pending bits shifted down. -/
lemma crcRound_xor (c m : ℕ) :
    crcRound (c ^^^ m) = crcSpecBit c (m % 2) ^^^ (m / 2) := by
  unfold crcRound crcSpecBit
  rw [xor_mod_two c m, xor_div_two c m]
  by_cases hc : (c % 2) ^^^ (m % 2) = 1
  · rw [Nat.xor_assoc (c / 2) (m / 2) 40961, Nat.xor_comm (m / 2) 40961,
      ← Nat.xor_assoc]
    simp [hc]
  · simp only [if_neg hc]

/-- `k` source rounds on `c ^^^ m` equal the spec's bit-serial CRC on
the low `k` bits of `m`, with the unconsumed bits of `m` still XOR-ed
into the register. -/
lemma crcRound_iterate (k : ℕ) :
    ∀ c m : ℕ, crcRound^[k] (c ^^^ m) = crcSpecBits k c m ^^^ (m / 2 ^ k) := by
  induction k with
  | zero => intro c m; simp [crcSpecBits]
  | succ k ih =>
      intro c m
      rw [Function.iterate_succ_apply, crcRound_xor c m, ih, crcSpecBits]
      rw [Nat.div_div_eq_div_mul]
      ring_nf

/-- Per byte (`b < 256`): the C inner loop equals the spec's eight
LSB-first bit rounds. -/
lemma crcByte_eq_spec (c b : ℕ) (hb : b < 256) :
    crcRound^[8] (c ^^^ b) = crcSpecBits 8 c b := by
  rw [crcRound_iterate 8 c b, Nat.div_eq_of_lt (by omega), Nat.xor_zero]

/-- Fold-level version of `crcByte_eq_spec`, for any start register. -/
lemma crc_fold_eq (data : List ℕ) (h : ∀ b ∈ data, b < 256) :
    ∀ c, data.foldl (fun crc b => crcRound^[8] (crc ^^^ b)) c =
      data.foldl (fun crc b => crcSpecBits 8 crc b) c := by
  induction data with
  | nil => intro c; rfl
  | cons b bs ih =>
      intro c
      simp only [List.foldl_cons]
      rw [crcByte_eq_spec c b (h b (by simp))]
      exact ih (fun x hx => h x (by simp [hx])) _

/-- The source `crc16` computes exactly the CRC the spec describes
(polynomial `0xA001`, init 0, no final XOR, LSB-first), for byte-valued
input. -/
lemma crc16_eq_spec (data : List ℕ) (h : ∀ b ∈ data, b < 256) :
    crc16 data = crc16_spec data :=
  crc_fold_eq data h 0

/-! ## Lemmas: the assembler refines the abstract byte machine -/

/-- Buffer-layout invariant of the concrete assembler: outside `idle`,
`telegram_start` points strictly inside the filled buffer. -/
def P1Inv (s : P1Buf) : Prop := s.st ≠ .idle → s.tstart < s.buf.length

lemma p1_inv_init : P1Inv p1_buf_init := by
  intro h
  simp [p1_buf_init] at h

lemma getLast?_drop {α : Type} (l : List α) (n : ℕ) (h : n < l.length) :
    (l.drop n).getLast? = l.getLast? := by
  induction l generalizing n with
  | nil => simp at h
  | cons a l ih =>
      cases n with
      | zero => simp
      | succ n =>
          simp only [List.length_cons, Nat.succ_lt_succ_iff] at h
          rw [List.drop_succ_cons, ih n h]
          cases l with
          | nil => simp at h
          | cons b l' => simp [List.getLast?_cons_cons]

lemma set_append_len {α : Type} (l : List α) (b c : α) :
    (l ++ [b]).set l.length c = l ++ [c] := by
  induction l with
  | nil => rfl
  | cons a l ih => simp [List.set_cons_succ, ih]

/-- One concrete scan step simulates one abstract step: same outputs,
related states, invariant preserved, buffer grows by one byte. -/
lemma p1_sim_step (s : P1Buf) (b : ℕ) (hinv : P1Inv s) :
    absOf (p1_step s b).1 = (a_step (absOf s) b).1 ∧
    (p1_step s b).2 = (a_step (absOf s) b).2 ∧
    P1Inv (p1_step s b).1 ∧
    (p1_step s b).1.buf.length = s.buf.length + 1 := by
  obtain ⟨st, buf, tstart⟩ := s
  cases st with
  | idle =>
      by_cases hb : b = 47
      · subst hb
        have hstep : p1_step ⟨.idle, buf, tstart⟩ 47 =
            (⟨.data, buf ++ [47], buf.length⟩, []) := by
          simp [p1_step]
        have hastep : a_step (absOf ⟨.idle, buf, tstart⟩) 47 = (⟨.data, [47]⟩, []) := by
          simp [a_step, absOf]
        rw [hstep, hastep]
        refine ⟨?_, rfl, ?_, by simp⟩
        · simp [absOf]
        · intro _
          simp
      · have hstep : p1_step ⟨.idle, buf, tstart⟩ b =
            (⟨.idle, buf ++ [b], tstart⟩, []) := by
          simp [p1_step, hb]
        have hastep : a_step (absOf ⟨.idle, buf, tstart⟩) b =
            (absOf ⟨.idle, buf, tstart⟩, []) := by
          simp [a_step, absOf, hb]
        rw [hstep, hastep]
        refine ⟨?_, rfl, ?_, by simp⟩
        · simp [absOf]
        · intro h
          simp [P1Buf.st] at h
  | data =>
      have hts : tstart < buf.length := hinv (by simp)
      by_cases hb : b = 33
      · subst hb
        have hstep : p1_step ⟨.data, buf, tstart⟩ 33 =
            (⟨.fin, buf ++ [33], tstart⟩, []) := by
          simp [p1_step]
        have hastep : a_step (absOf ⟨.data, buf, tstart⟩) 33 =
            (⟨.fin, buf.drop tstart ++ [33]⟩, []) := by
          simp [a_step, absOf]
        rw [hstep, hastep]
        refine ⟨?_, rfl, ?_, by simp⟩
        · simp [absOf, List.drop_append_of_le_length (le_of_lt hts)]
        · intro _
          simp
          omega
      · have hstep : p1_step ⟨.data, buf, tstart⟩ b =
            (⟨.data, buf ++ [b], tstart⟩, []) := by
          simp [p1_step, hb]
        have hastep : a_step (absOf ⟨.data, buf, tstart⟩) b =
            (⟨.data, buf.drop tstart ++ [b]⟩, []) := by
          simp [a_step, absOf, hb]
        rw [hstep, hastep]
        refine ⟨?_, rfl, ?_, by simp⟩
        · simp [absOf, List.drop_append_of_le_length (le_of_lt hts)]
        · intro _
          simp
          omega
  | fin =>
      have hts : tstart < buf.length := hinv (by simp)
      have hlast : (buf.drop tstart).getLast?.getD 0 = buf.getLast?.getD 0 := by
        rw [getLast?_drop buf tstart hts]
      by_cases hc : buf.getLast?.getD 0 = 13 ∧ b = 10
      · have hstep : p1_step ⟨.fin, buf, tstart⟩ b =
            (⟨.idle, (buf ++ [b]).set buf.length 0, tstart⟩,
              [((buf ++ [b]).set buf.length 0).drop tstart]) := by
          simp only [p1_step, if_pos hc]
        have hastep : a_step (absOf ⟨.fin, buf, tstart⟩) b =
            (⟨.idle, []⟩, [buf.drop tstart ++ [0]]) := by
          have hc' : (buf.drop tstart).getLast?.getD 0 = 13 ∧ b = 10 := by
            rw [hlast]; exact hc
          simp [a_step, absOf, hc'.1, hc'.2]
        rw [hstep, hastep]
        have hset : (buf ++ [b]).set buf.length 0 = buf ++ [0] := set_append_len buf b 0
        refine ⟨by simp [absOf], ?_, ?_, by simp [hset]⟩
        · rw [hset, List.drop_append_of_le_length (le_of_lt hts)]
        · intro h
          simp [P1Buf.st] at h
      · have hstep : p1_step ⟨.fin, buf, tstart⟩ b =
            (⟨.fin, buf ++ [b], tstart⟩, []) := by
          simp only [p1_step, if_neg hc]
        have hastep : a_step (absOf ⟨.fin, buf, tstart⟩) b =
            (⟨.fin, buf.drop tstart ++ [b]⟩, []) := by
          have hc' : ¬ ((buf.drop tstart).getLast?.getD 0 = 13 ∧ b = 10) := by
            rw [hlast]; exact hc
          simp [a_step, absOf, hc']
        rw [hstep, hastep]
        refine ⟨?_, rfl, ?_, by simp⟩
        · simp [absOf, List.drop_append_of_le_length (le_of_lt hts)]
        · intro _
          simp
          omega

/-- The scan loop simulates the abstract run. -/
lemma p1_sim_run (xs : List ℕ) : ∀ s : P1Buf, P1Inv s →
    absOf (p1_run s xs).1 = (a_run (absOf s) xs).1 ∧
    (p1_run s xs).2 = (a_run (absOf s) xs).2 ∧
    P1Inv (p1_run s xs).1 ∧
    (p1_run s xs).1.buf.length = s.buf.length + xs.length := by
  induction xs with
  | nil => intro s hinv; exact ⟨rfl, rfl, hinv, by simp [p1_run]⟩
  | cons b bs ih =>
      intro s hinv
      obtain ⟨h1, h2, h3, h4⟩ := p1_sim_step s b hinv
      obtain ⟨g1, g2, g3, g4⟩ := ih (p1_step s b).1 h3
      have e1 : p1_run s (b :: bs) =
          ((p1_run (p1_step s b).1 bs).1,
            (p1_step s b).2 ++ (p1_run (p1_step s b).1 bs).2) := rfl
      have e2 : a_run (absOf s) (b :: bs) =
          ((a_run (a_step (absOf s) b).1 bs).1,
            (a_step (absOf s) b).2 ++ (a_run (a_step (absOf s) b).1 bs).2) := rfl
      rw [e1, e2]
      refine ⟨?_, ?_, g3, ?_⟩
      · rw [g1, h1]
      · rw [g2, h2, h1]
      · simp only [List.length_cons]
        omega

/-- Compaction is invisible through the abstraction. -/
lemma p1_compact_spec (s : P1Buf) (hinv : P1Inv s) :
    absOf (p1_compact s) = absOf s ∧ P1Inv (p1_compact s) ∧
    (p1_compact s).buf.length ≤ s.buf.length := by
  unfold p1_compact
  by_cases hc : s.st = .data ∧ s.tstart ≠ 0
  · have hts : s.tstart < s.buf.length := hinv (by rw [hc.1]; simp)
    rw [if_pos hc]
    refine ⟨?_, ?_, by simp [List.length_drop]⟩
    · simp [absOf, hc.1]
    · intro _
      simp only [List.length_drop]
      omega
  · rw [if_neg hc]
    exact ⟨rfl, hinv, le_refl _⟩

/-- A fitting event behaves like the abstract run on its bytes. -/
lemma process_p1_data_spec (s : P1Buf) (chunk : List ℕ) (hinv : P1Inv s)
    (hfit : s.buf.length + chunk.length ≤ 1500) :
    absOf (process_p1_data s chunk).1 = (a_run (absOf s) chunk).1 ∧
    (process_p1_data s chunk).2 = (a_run (absOf s) chunk).2 ∧
    P1Inv (process_p1_data s chunk).1 ∧
    (process_p1_data s chunk).1.buf.length ≤ s.buf.length + chunk.length := by
  unfold process_p1_data
  rw [if_neg (by omega)]
  obtain ⟨h1, h2, h3, h4⟩ := p1_sim_run chunk s hinv
  obtain ⟨g1, g2, g3⟩ := p1_compact_spec (p1_run s chunk).1 h3
  exact ⟨by rw [g1, h1], h2, g2, h4 ▸ g3⟩

/-- Splitting an abstract run at a list append. -/
lemma a_run_append (xs ys : List ℕ) : ∀ s : P1Abs,
    a_run s (xs ++ ys) =
      ((a_run (a_run s xs).1 ys).1, (a_run s xs).2 ++ (a_run (a_run s xs).1 ys).2) := by
  induction xs with
  | nil => intro s; simp [a_run]
  | cons b bs ih =>
      intro s
      simp only [List.cons_append, a_run, List.append_eq]
      rw [ih (a_step s b).1]
      simp [List.append_assoc]

/-- When every event fits, the whole delivery schedule behaves like one
abstract run over the delivered bytes: the assembled telegrams do not
depend on the event boundaries. -/
lemma p1_events_spec (stream : List ℕ) (sizes : List ℕ) :
    ∀ (s : P1Buf) (cur : ℕ), P1Inv s → cur + sizes.sum ≤ stream.length →
    s.buf.length + sizes.sum ≤ 1500 →
    (p1_events stream s cur sizes).2 =
      (a_run (absOf s) ((stream.drop cur).take sizes.sum)).2 := by
  induction sizes with
  | nil =>
      intro s cur _ _ _
      simp [p1_events, a_run]
  | cons size rest ih =>
      intro s cur hinv hlen hfit
      have hsum : (size :: rest).sum = size + rest.sum := by simp
      have hchunk : ((stream.drop cur).take size).length = size := by
        rw [List.length_take, List.length_drop]
        have : cur + size ≤ stream.length := by
          rw [hsum] at hlen; omega
        omega
      have hnof : ¬ (1500 < s.buf.length + ((stream.drop cur).take size).length) := by
        rw [hchunk]
        have h := hfit
        rw [hsum] at h
        omega
      obtain ⟨h1, h2, h3, h4⟩ := process_p1_data_spec s ((stream.drop cur).take size)
        hinv (by rw [hchunk]; rw [hsum] at hfit; omega)
      have hcur : p1_next_cursor stream s cur size = cur + size := by
        unfold p1_next_cursor
        rw [if_neg hnof, hchunk]
      have e1 : p1_events stream s cur (size :: rest) =
          ((p1_events stream (process_p1_data s ((stream.drop cur).take size)).1
              (p1_next_cursor stream s cur size) rest).1,
            (process_p1_data s ((stream.drop cur).take size)).2 ++
              (p1_events stream (process_p1_data s ((stream.drop cur).take size)).1
                (p1_next_cursor stream s cur size) rest).2) := rfl
      rw [e1, h2, hcur]
      rw [ih (process_p1_data s ((stream.drop cur).take size)).1
        (cur + size) h3
        (by rw [hsum] at hlen; omega)
        (by rw [hchunk] at h4; rw [hsum] at hfit; omega)]
      rw [h1]
      have hdd : (stream.drop cur).drop size = stream.drop (cur + size) := by
        rw [List.drop_drop]
        try rw [Nat.add_comm size cur]
      have hsplit : (stream.drop cur).take (size :: rest).sum =
          (stream.drop cur).take size ++ (stream.drop (cur + size)).take rest.sum := by
        rw [hsum, List.take_add, hdd]
      rw [hsplit, a_run_append]

/-! ## Lemmas: runs of the abstract machine over framed streams -/

/-- Unfolding of `a_run` on a cons. -/
lemma a_run_cons (s : P1Abs) (b : ℕ) (bs : List ℕ) :
    a_run s (b :: bs) =
      ((a_run (a_step s b).1 bs).1, (a_step s b).2 ++ (a_run (a_step s b).1 bs).2) := rfl

lemma a_step_idle_slash (tg : List ℕ) :
    a_step ⟨.idle, tg⟩ 47 = (⟨.data, [47]⟩, []) := by
  simp [a_step]

lemma a_step_data_bang (tg : List ℕ) :
    a_step ⟨.data, tg⟩ 33 = (⟨.fin, tg ++ [33]⟩, []) := by
  simp [a_step]

lemma a_step_fin_done (tg : List ℕ) (h : tg.getLast? = some 13) :
    a_step ⟨.fin, tg⟩ 10 = (⟨.idle, []⟩, [tg ++ [0]]) := by
  simp [a_step, h]

/-- Idle scanning skips bytes that are not `'/'`. -/
lemma a_run_idle (xs : List ℕ) : ∀ tg : List ℕ, 47 ∉ xs →
    a_run ⟨.idle, tg⟩ xs = (⟨.idle, tg⟩, []) := by
  induction xs with
  | nil => intro tg _; rfl
  | cons b bs ih =>
      intro tg h
      have hb : b ≠ 47 := fun hb => h (by simp [hb])
      have hstep : a_step ⟨.idle, tg⟩ b = (⟨.idle, tg⟩, []) := by
        simp [a_step, hb]
      rw [a_run_cons, hstep, ih tg (fun hx => h (List.mem_cons_of_mem _ hx))]
      simp

/-- Data-state scanning appends bytes that are not `'!'`. -/
lemma a_run_data (xs : List ℕ) : ∀ tg : List ℕ, 33 ∉ xs →
    a_run ⟨.data, tg⟩ xs = (⟨.data, tg ++ xs⟩, []) := by
  induction xs with
  | nil => intro tg _; simp [a_run]
  | cons b bs ih =>
      intro tg h
      have hb : b ≠ 33 := fun hb => h (by simp [hb])
      have hstep : a_step ⟨.data, tg⟩ b = (⟨.data, tg ++ [b]⟩, []) := by
        simp [a_step, hb]
      rw [a_run_cons, hstep, ih (tg ++ [b]) (fun hx => h (List.mem_cons_of_mem _ hx))]
      simp

/-- End-state scanning appends bytes that are not `'\n'`. -/
lemma a_run_fin (xs : List ℕ) : ∀ tg : List ℕ, 10 ∉ xs →
    a_run ⟨.fin, tg⟩ xs = (⟨.fin, tg ++ xs⟩, []) := by
  induction xs with
  | nil => intro tg _; simp [a_run]
  | cons b bs ih =>
      intro tg h
      have hb : b ≠ 10 := fun hb => h (by simp [hb])
      have hstep : a_step ⟨.fin, tg⟩ b = (⟨.fin, tg ++ [b]⟩, []) := by
        simp [a_step, hb]
      rw [a_run_cons, hstep, ih (tg ++ [b]) (fun hx => h (List.mem_cons_of_mem _ hx))]
      simp

/-- A correctly framed telegram, as the spec's wire format describes it:
a `'/'`, a body free of `'!'`, the `'!'`, four CRC bytes that contain no
`'\n'`, and the closing `"\r\n"`. -/
def wellFramed (T : List ℕ) : Prop :=
  ∃ mid c4 : List ℕ, T = 47 :: (mid ++ 33 :: (c4 ++ [13, 10])) ∧
    33 ∉ mid ∧ 10 ∉ c4 ∧ c4.length = 4

/-- Scanning one correctly framed telegram from idle yields exactly that
telegram (with its final `'\n'` overwritten by NUL) and returns to
idle. -/
lemma a_run_telegram (mid c4 : List ℕ) (hmid : 33 ∉ mid) (hc4 : 10 ∉ c4) :
    a_run ⟨.idle, []⟩ (47 :: (mid ++ 33 :: (c4 ++ [13, 10]))) =
      (⟨.idle, []⟩, [47 :: (mid ++ 33 :: (c4 ++ [13, 0]))]) := by
  rw [a_run_cons, a_step_idle_slash]
  show ((a_run ⟨.data, [47]⟩ (mid ++ 33 :: (c4 ++ [13, 10]))).1,
      [] ++ (a_run ⟨.data, [47]⟩ (mid ++ 33 :: (c4 ++ [13, 10]))).2) = _
  rw [a_run_append, a_run_data mid [47] hmid]
  rw [a_run_cons, a_step_data_bang]
  rw [show c4 ++ [13, 10] = (c4 ++ [13]) ++ [10] from by simp]
  rw [a_run_append, a_run_fin (c4 ++ [13]) ([47] ++ mid ++ [33])
    (by
      intro hx
      rcases List.mem_append.mp hx with h1 | h1
      · exact hc4 h1
      · simp at h1)]
  have hlast : (([47] ++ mid ++ [33]) ++ (c4 ++ [13])).getLast? = some 13 := by
    rw [show ([47] ++ mid ++ [33]) ++ (c4 ++ [13]) =
      (([47] ++ mid ++ [33]) ++ c4) ++ [13] from by simp]
    exact List.getLast?_concat _
  rw [a_run_cons, a_step_fin_done _ hlast]
  simp [a_run]

/-- Whenever the whole stream fits the 1500-byte working buffer, any
delivery schedule covering it assembles the same telegrams as the
abstract byte machine. -/
lemma assembled_of_fits (stream : List ℕ) (sizes : List ℕ)
    (hsum : sizes.sum = stream.length) (hlen : stream.length ≤ 1500) :
    assembled stream sizes = (a_run ⟨.idle, []⟩ stream).2 := by
  unfold assembled
  rw [p1_events_spec stream sizes p1_buf_init 0 p1_inv_init
    (by omega) (by simp [p1_buf_init]; omega)]
  rw [show absOf p1_buf_init = ⟨.idle, []⟩ from by simp [absOf, p1_buf_init]]
  rw [hsum]
  simp

/-! ## Lemmas: short-term ring-buffer characterisation -/

/-- The short-term ring reached from the fresh ring by the append
sequence `es` (the states reachable in the running system). -/
def short_term_state (es : List log_entry_short_term_p1_data_t) : ShortTermLog :=
  es.foldl add_short_term_log_entry short_term_log_init

lemma short_term_state_append (es : List log_entry_short_term_p1_data_t)
    (e : log_entry_short_term_p1_data_t) :
    short_term_state (es ++ [e]) = add_short_term_log_entry (short_term_state es) e := by
  unfold short_term_state
  rw [List.foldl_append]
  rfl

lemma short_term_state_buf_len (es : List log_entry_short_term_p1_data_t) :
    (short_term_state es).buf.length = 900 := by
  induction es using List.reverseRecOn with
  | nil =>
      show short_term_log_init.buf.length = 900
      rw [show short_term_log_init.buf = List.replicate 900 st_entry_zero from rfl]
      rw [List.length_replicate]
  | append_singleton es e ih =>
      rw [short_term_state_append]
      simp [add_short_term_log_entry, ih]

lemma short_term_state_head (es : List log_entry_short_term_p1_data_t) :
    (short_term_state es).head = es.length % 900 := by
  induction es using List.reverseRecOn with
  | nil => simp [short_term_state, short_term_log_init]
  | append_singleton es e ih =>
      rw [short_term_state_append]
      simp only [add_short_term_log_entry, LOGGER_SHORT_TERM_LOG_SIZE, ih,
        List.length_append, List.length_cons, List.length_nil]
      omega

lemma short_term_state_count (es : List log_entry_short_term_p1_data_t) :
    (short_term_state es).count = min es.length 900 := by
  induction es using List.reverseRecOn with
  | nil => simp [short_term_state, short_term_log_init]
  | append_singleton es e ih =>
      rw [short_term_state_append]
      simp only [add_short_term_log_entry, LOGGER_SHORT_TERM_LOG_SIZE, ih,
        List.length_append, List.length_cons, List.length_nil]
      split_ifs <;> omega

/-- What the ring read returns, in terms of the append history: the
most recent `min max (min |es| 900)` entries, oldest first. -/
lemma short_term_get_spec (es : List log_entry_short_term_p1_data_t) (max : ℕ) :
    logger_get_short_term_log_items (short_term_state es) max =
      es.drop (es.length - min max (min es.length 900)) := by
  induction es using List.reverseRecOn generalizing max with
  | nil =>
      show logger_get_short_term_log_items short_term_log_init max = _
      unfold logger_get_short_term_log_items
      rw [show short_term_log_init.count = 0 from rfl]
      simp
  | append_singleton es e ih =>
      have hlen : (es ++ [e]).length = es.length + 1 := by simp
      have hbuf := short_term_state_buf_len es
      have hhead := short_term_state_head es
      have hcount := short_term_state_count es
      rw [short_term_state_append]
      set len := es.length with hlendef
      have hcount' : (add_short_term_log_entry (short_term_state es) e).count =
          min (len + 1) 900 := by
        simp only [add_short_term_log_entry, LOGGER_SHORT_TERM_LOG_SIZE, hcount]
        split_ifs <;> omega
      have hhead' : (add_short_term_log_entry (short_term_state es) e).head =
          (len + 1) % 900 := by
        simp only [add_short_term_log_entry, LOGGER_SHORT_TERM_LOG_SIZE, hhead]
        omega
      have hbuf' : (add_short_term_log_entry (short_term_state es) e).buf =
          (short_term_state es).buf.set (len % 900) e := by
        simp only [add_short_term_log_entry, hhead]
      rw [hlen]
      unfold logger_get_short_term_log_items
      rw [hcount', hhead', hbuf']
      simp only [LOGGER_SHORT_TERM_LOG_SIZE]
      by_cases hm : min max (min (len + 1) 900) = 0
      · rw [hm]
        have hd : List.drop (len + 1 - 0) (es ++ [e]) = [] :=
          List.drop_eq_nil_of_le (by simp)
        rw [hd]
        simp
      · set n' := min max (min (len + 1) 900) with hn'
        have hn1 : 1 ≤ n' := by omega
        have hn900 : n' ≤ 900 := by omega
        have hnlen : n' ≤ len + 1 := by omega
        have hsucc : n' = (n' - 1) + 1 := by omega
        rw [hsucc, List.range_succ, List.map_append, List.map_cons, List.map_nil]
        have hidx_last :
            (((900 + (len + 1) % 900 - ((n' - 1) + 1)) % 900) + (n' - 1)) % 900 =
              len % 900 := by
          omega
        have hlast : ((short_term_state es).buf.set (len % 900) e).getD
            ((((900 + (len + 1) % 900 - ((n' - 1) + 1)) % 900) + (n' - 1)) % 900)
            st_entry_zero = e := by
          rw [hidx_last, List.getD_eq_getElem?_getD,
            List.getElem?_set_self (by rw [hbuf]; omega)]
          rfl
        rw [hlast]
        have hmid : (List.range (n' - 1)).map (fun i =>
            ((short_term_state es).buf.set (len % 900) e).getD
              ((((900 + (len + 1) % 900 - ((n' - 1) + 1)) % 900) + i) % 900)
              st_entry_zero) =
            logger_get_short_term_log_items (short_term_state es) (n' - 1) := by
          unfold logger_get_short_term_log_items
          have hminn : min (n' - 1) (short_term_state es).count = n' - 1 := by
            rw [hcount]; omega
          rw [hminn, hhead]
          simp only [LOGGER_SHORT_TERM_LOG_SIZE]
          apply List.map_congr_left
          intro i hi
          have hi' : i < n' - 1 := List.mem_range.mp hi
          have hne : (((900 + (len + 1) % 900 - ((n' - 1) + 1)) % 900) + i) % 900 ≠
              len % 900 := by
            omega
          rw [List.getD_eq_getElem?_getD, List.getElem?_set_ne (Ne.symm hne),
            ← List.getD_eq_getElem?_getD]
          have hsame : (((900 + (len + 1) % 900 - ((n' - 1) + 1)) % 900) + i) % 900 =
              ((900 + len % 900 - (n' - 1)) % 900 + i) % 900 := by
            omega
          rw [hsame]
        rw [hmid, ih (n' - 1)]
        have hdrop2 : len - min (n' - 1) (min len 900) = (len + 1) - n' := by
          omega
        rw [hdrop2]
        rw [List.drop_append_of_le_length (by omega)]
        rw [← hsucc]

/-! ## Lemmas: predictor behaviour -/

/-- Over a segment of constant timestamp, every `timestamp_val` is 0, so
the `Σx`, `Σxx` and `Σxy` accumulators stay 0. -/
lemma lr_fold_const (es : List log_entry_short_term_p1_data_t) (t0 : ℤ)
    (h : ∀ e ∈ es, e.timestamp = t0) :
    ∀ a : LRSums, a.sum_timestamp = 0 → a.sum_timestamp_squared = 0 →
    a.sum_timestamp_current_avg_demand = 0 →
    (es.foldl (lr_step t0) a).sum_timestamp = 0 ∧
    (es.foldl (lr_step t0) a).sum_timestamp_squared = 0 ∧
    (es.foldl (lr_step t0) a).sum_timestamp_current_avg_demand = 0 := by
  induction es with
  | nil => intro a h1 h2 h3; exact ⟨h1, h2, h3⟩
  | cons e es ih =>
      intro a h1 h2 h3
      have he : e.timestamp = t0 := h e (by simp)
      have htv : u32 (e.timestamp - t0) = 0 := by
        rw [he]
        simp [u32]
      simp only [List.foldl_cons]
      exact ih (fun x hx => h x (by simp [hx])) (lr_step t0 a e)
        (by simp [lr_step, htv, h1])
        (by simp [lr_step, htv, h2])
        (by simp [lr_step, htv, h3])

/-- On a nonempty constant-timestamp segment the denominator is an
exact zero and the unguarded division makes the slope non-finite. -/
lemma lr_slope_const_ts (es : List log_entry_short_term_p1_data_t)
    (hne : es ≠ [])
    (h : ∀ e ∈ es, e.timestamp = (es.headD st_entry_zero).timestamp) :
    lr_slope es = none := by
  obtain ⟨h1, h2, h3⟩ := lr_fold_const es ((es.headD st_entry_zero).timestamp) h
    ⟨0, 0, 0, 0⟩ rfl rfl rfl
  unfold lr_slope
  have hcount : (es.length : ℚ) ≠ 0 := by
    simp [List.length_eq_zero, hne]
  simp only [h1, h2, h3]
  simp [fsub, fmul, fdiv, hcount]

/-- With a non-finite slope the committed prediction value is
non-finite (NaN); its timestamp is still the end of the first entry's
quarter-hour. -/
lemma predict_lr_const_ts (es : List log_entry_short_term_p1_data_t)
    (hne : es ≠ [])
    (h : ∀ e ∈ es, e.timestamp = (es.headD st_entry_zero).timestamp) :
    (predict_peak_linear_regression es).value = none ∧
    (predict_peak_linear_regression es).timestamp =
      get_timestamp_at_end_of_quarter_hour ((es.headD st_entry_zero).timestamp) := by
  unfold predict_peak_linear_regression
  rw [lr_slope_const_ts es hne h]
  exact ⟨by simp [fadd, fmul], rfl⟩

/-- The linear-regression prediction always carries the end-of-quarter
timestamp of its first entry. -/
lemma predict_lr_timestamp (es : List log_entry_short_term_p1_data_t) :
    (predict_peak_linear_regression es).timestamp =
      get_timestamp_at_end_of_quarter_hour ((es.headD st_entry_zero).timestamp) := rfl

/-- The weighted-average prediction always carries the end-of-quarter
timestamp of its first entry. -/
lemma predict_wa_timestamp (es : List log_entry_short_term_p1_data_t) :
    (predict_peak_weighted_average es).timestamp =
      get_timestamp_at_end_of_quarter_hour ((es.headD st_entry_zero).timestamp) := rfl

lemma headD_drop {α : Type} (l : List α) (k : ℕ) (d : α) (h : k < l.length) :
    (l.drop k).headD d = l.getD k d := by
  induction l generalizing k with
  | nil => simp at h
  | cons a l ih =>
      cases k with
      | zero => simp [List.getD]
      | succ k =>
          simp only [List.length_cons, Nat.succ_lt_succ_iff] at h
          rw [List.drop_succ_cons, ih k h]
          rfl

/-- The alignment index stays inside a nonempty log. -/
lemma first_entry_index_lt (es : List log_entry_short_term_p1_data_t)
    (hne : es ≠ []) : first_entry_index es < es.length := by
  unfold first_entry_index
  cases hf : es.findIdx? (fun e =>
      tm_min_of e.timestamp % 15 = 0 ∧ tm_sec_of e.timestamp = 0) with
  | none =>
      simp only []
      cases es with
      | nil => exact absurd rfl hne
      | cons a l => simp
  | some i =>
      simp only []
      exact (List.findIdx?_eq_some_iff_findIdx_eq.mp hf).1

/-! ## Lemmas: delimiter extraction and the uint field path -/

lemma dropWhile_append_all {p : ℕ → Bool} (l xs : List ℕ)
    (h : ∀ x ∈ l, p x = true) : (l ++ xs).dropWhile p = xs.dropWhile p := by
  induction l with
  | nil => rfl
  | cons a l ih =>
      rw [List.cons_append, List.dropWhile_cons_of_pos (h a (by simp))]
      exact ih (fun x hx => h x (by simp [hx]))

lemma takeWhile_append_all {p : ℕ → Bool} (l xs : List ℕ)
    (h : ∀ x ∈ l, p x = true) : (l ++ xs).takeWhile p = l ++ xs.takeWhile p := by
  induction l with
  | nil => rfl
  | cons a l ih =>
      rw [List.cons_append, List.takeWhile_cons_of_pos (h a (by simp)),
        ih (fun x hx => h x (by simp [hx]))]
      rfl

/-- `get_string_between_chars` on a line of the shape
`l₁ (a) s₀ (b) l₂` with `a` absent from `l₁`, `b` absent from `s₀`, and
a fitting buffer: it extracts exactly `s₀`. -/
lemma get_string_between_chars_exact (l1 s0 l2 : List ℕ) (a b maxSize : ℕ)
    (h1 : ∀ x ∈ l1, x ≠ a) (hs0 : ∀ x ∈ s0, x ≠ b)
    (hlen : s0.length < maxSize) :
    get_string_between_chars (l1 ++ a :: (s0 ++ b :: l2)) a b maxSize =
      some s0 := by
  unfold get_string_between_chars
  have hd : (l1 ++ a :: (s0 ++ b :: l2)).dropWhile (· ≠ a) =
      a :: (s0 ++ b :: l2) := by
    rw [dropWhile_append_all l1 _ (by intro x hx; simpa using h1 x hx)]
    rw [List.dropWhile_cons_of_neg (by simp)]
  rw [hd]
  have hmem : b ∈ s0 ++ b :: l2 := by simp
  have htake : (s0 ++ b :: l2).takeWhile (· ≠ b) = s0 := by
    rw [takeWhile_append_all s0 _ (by intro x hx; simpa using hs0 x hx)]
    rw [List.takeWhile_cons_of_neg (by simp)]
    simp
  simp only [hmem, if_pos, htake]
  rw [if_neg (by omega)]

/-- `get_string_between_chars` on a line of the shape
`l₁ (a) s₀ (b) l₂` with `a` absent from `l₁` and `b` absent from `s₀`,
for any buffer size: it extracts the first `maxSize − 1` bytes of
`s₀`. -/
lemma get_string_between_chars_trunc (l1 s0 l2 : List ℕ) (a b maxSize : ℕ)
    (h1 : ∀ x ∈ l1, x ≠ a) (hs0 : ∀ x ∈ s0, x ≠ b) (hm : 1 ≤ maxSize) :
    get_string_between_chars (l1 ++ a :: (s0 ++ b :: l2)) a b maxSize =
      some (s0.take (maxSize - 1)) := by
  unfold get_string_between_chars
  have hd : (l1 ++ a :: (s0 ++ b :: l2)).dropWhile (· ≠ a) =
      a :: (s0 ++ b :: l2) := by
    rw [dropWhile_append_all l1 _ (by intro x hx; simpa using h1 x hx)]
    rw [List.dropWhile_cons_of_neg (by simp)]
  rw [hd]
  have hmem : b ∈ s0 ++ b :: l2 := by simp
  have htake : (s0 ++ b :: l2).takeWhile (· ≠ b) = s0 := by
    rw [takeWhile_append_all s0 _ (by intro x hx; simpa using hs0 x hx)]
    rw [List.takeWhile_cons_of_neg (by simp)]
    simp
  simp only [hmem, if_pos, htake]
  split_ifs with h
  · rfl
  · rw [List.take_of_length_le (by omega)]

/-- The full behaviour of `get_uint32_between_chars` on an all-digit
field of any length: the span is cut to its first ten characters by the
11-byte buffer, `strtoul` clamps at `2^32 − 1`, and the `uint16_t`
store reduces mod `2^16`. -/
lemma get_uint32_between_chars_trunc (l1 s0 l2 : List ℕ)
    (h1 : 40 ∉ l1) (hdig : ∀ c ∈ s0, 48 ≤ c ∧ c ≤ 57) :
    get_uint32_between_chars (l1 ++ 40 :: (s0 ++ 41 :: l2)) 40 41 =
      min (digitsVal (s0.take 10)) 4294967295 % 65536 := by
  unfold get_uint32_between_chars
  rw [get_string_between_chars_trunc l1 s0 l2 40 41 11
    (fun x hx hx40 => h1 (hx40 ▸ hx))
    (fun x hx hx41 => by
      have := hdig x hx
      omega)
    (by omega)]
  show strtoul10 (s0.take 10) % 65536 = _
  unfold strtoul10
  have htw : (s0.take 10).takeWhile isDigitB = s0.take 10 := by
    rw [List.takeWhile_eq_self_iff.mpr]
    intro x hx
    have := hdig x (List.take_subset _ _ hx)
    simp [isDigitB]
    omega
  rw [htw]

/-- A nonempty all-digit field of at most ten characters whose value
fits `unsigned long`: `get_uint32_between_chars` returns its value
reduced mod `2^16`. -/
lemma get_uint32_between_chars_spec (l1 s0 l2 : List ℕ)
    (h1 : 40 ∉ l1) (hdig : ∀ c ∈ s0, 48 ≤ c ∧ c ≤ 57)
    (hlen : s0.length ≤ 10) (hv : digitsVal s0 < 4294967296) :
    get_uint32_between_chars (l1 ++ 40 :: (s0 ++ 41 :: l2)) 40 41 =
      digitsVal s0 % 65536 := by
  unfold get_uint32_between_chars
  rw [get_string_between_chars_exact l1 s0 l2 40 41 11
    (fun x hx hx40 => h1 (hx40 ▸ hx))
    (fun x hx hx41 => by
      have := hdig x hx
      omega)
    (by omega)]
  show strtoul10 s0 % 65536 = digitsVal s0 % 65536
  unfold strtoul10
  have htw : s0.takeWhile isDigitB = s0 := by
    rw [List.takeWhile_eq_self_iff.mpr]
    intro x hx
    have := hdig x hx
    simp [isDigitB]
    omega
  rw [htw]
  rw [min_eq_left (by omega)]

/-- `parse_telegram_step` on a CRC failure: snapshot kept, no action. -/
lemma parse_telegram_step_fail (p1 : emucs_p1_data_t) (t : List ℕ)
    (h : check_telegram_crc t = false) :
    parse_telegram_step p1 t = (p1, []) := by
  simp [parse_telegram_step, parse_telegram, h]

/-- `parse_telegram_step` on a CRC success: the freshly parsed snapshot
is committed, then the edge fires. -/
lemma parse_telegram_step_ok (p1 : emucs_p1_data_t) (t : List ℕ)
    (h : check_telegram_crc t = true) :
    parse_telegram_step p1 t =
      (parseFields t, [.commit (parseFields t), .edge]) := by
  simp [parse_telegram_step, parse_telegram, h]

/-! ## Claim theorems -/

/-- C3. The claim says: starting from an empty long-term log, appending
two entries of the same 900-second quarter-hour bucket leaves
`item_count = 1` and the long-term snapshot returns exactly that one
entry.  The code disagrees: on an empty ring the seed branch replaces
the head's zero timestamp with the entry's own, so the bucket compare
`last/900 < new/900` fails and `item_count` is never incremented for
the first bucket — the entry is written into the slot but stays
invisible to `logger_get_long_term_log_items`, which contradicts the
code's own description of `long_term_log_item_count` as "the number of
items in the log" (capacity instantiated at 96, the failure is
capacity-independent). -/
theorem C3_same_bucket_appends_item_count :
    (add_long_term_log_entry 96 (add_long_term_log_entry 96 (long_term_log_init 96)
      ⟨1000, 1, 2, 3, 4⟩) ⟨1500, 5, 6, 7, 8⟩).count = 0 ∧
    logger_get_long_term_log_items 96 (add_long_term_log_entry 96
      (add_long_term_log_entry 96 (long_term_log_init 96)
      ⟨1000, 1, 2, 3, 4⟩) ⟨1500, 5, 6, 7, 8⟩) 96 = [] ∧
    ((add_long_term_log_entry 96 (add_long_term_log_entry 96 (long_term_log_init 96)
      ⟨1000, 1, 2, 3, 4⟩) ⟨1500, 5, 6, 7, 8⟩).buf.getD 0 lt_entry_zero).timestamp
      = 1500 := by
  decide

/-- C4 counterexample: on the two-entry segment with equal timestamps
900 and constant value 5, the committed predicted value is the
non-finite marker (`none`, the model's NaN), not the last observed
value 5 the claim promises. -/
theorem C4_counterexample :
    (predict_peak_linear_regression [⟨900, 5, 0⟩, ⟨900, 5, 0⟩]).value = none ∧
    (predict_peak_linear_regression [⟨900, 5, 0⟩, ⟨900, 5, 0⟩]).value ≠
      some (5 : ℚ) := by
  have h : (predict_peak_linear_regression [⟨900, 5, 0⟩, ⟨900, 5, 0⟩]).value = none := by
    norm_num [predict_peak_linear_regression, lr_slope, lr_step, u32,
      fadd, fsub, fmul, fdiv, List.foldl]
  exact ⟨h, by rw [h]; intro hc; exact Option.noConfusion hc⟩

/-- C4 (amended): for every non-empty short-term log segment with all
timestamps equal, the least-squares denominator `Σxx − Σx·x̄` is an
exact zero, but the division is not guarded: the slope and the
committed predicted value are non-finite (NaN), instead of slope 0 and
the last observed `current_avg_demand`; the committed timestamp is
still the end of the segment's quarter-hour. -/
theorem C4_zero_denominator_not_guarded
    (es : List log_entry_short_term_p1_data_t) (hne : es ≠ [])
    (hconst : ∀ e ∈ es, e.timestamp = (es.headD st_entry_zero).timestamp) :
    lr_slope es = none ∧
    (predict_peak_linear_regression es).value = none ∧
    (predict_peak_linear_regression es).timestamp =
      get_timestamp_at_end_of_quarter_hour ((es.headD st_entry_zero).timestamp) := by
  obtain ⟨h1, h2⟩ := predict_lr_const_ts es hne hconst
  exact ⟨lr_slope_const_ts es hne hconst, h1, h2⟩

/-- Witness for C4: the amended statement at the concrete two-entry
segment of timestamp 900 (whose quarter-hour ends at 1800). -/
theorem C4_witness :
    lr_slope [⟨900, 5, 0⟩, ⟨900, 5, 0⟩] = none ∧
    (predict_peak_linear_regression
      [⟨900, (5 : ℚ), 0⟩, ⟨900, 5, 0⟩]).value = none ∧
    (predict_peak_linear_regression [⟨900, 5, 0⟩, ⟨900, 5, 0⟩]).timestamp =
      get_timestamp_at_end_of_quarter_hour 900 :=
  C4_zero_denominator_not_guarded [⟨900, 5, 0⟩, ⟨900, 5, 0⟩]
    (by decide) (by decide)

/-- C6 counterexample: the ring state reached by appending an entry of
timestamp 100 and then one of timestamp 50 is reachable, yet the
snapshot returns the two entries in decreasing timestamp order. -/
theorem C6_counterexample :
    ¬ List.Pairwise (fun a b : log_entry_short_term_p1_data_t =>
        a.timestamp ≤ b.timestamp)
      (logger_get_short_term_log_items
        (short_term_state [⟨100, 0, 0⟩, ⟨50, 0, 0⟩]) 2) := by
  decide

/-- C6 (amended): in every reachable short-term ring state
`item_count ≤ 900`, and the snapshot returns `min(item_count, max)`
entries — the most recent ones in insertion order; whenever the
appended timestamps were non-decreasing (as the spec's "items are
sorted by timestamp" documents for real telegram streams), the
returned entries are in non-decreasing timestamp order, oldest at the
tail through newest at the head.  Unconditional ordering fails because
appended timestamps may decrease (see the counterexample). -/
theorem C6_short_term_ring_invariants
    (es : List log_entry_short_term_p1_data_t) (max : ℕ) :
    (short_term_state es).count ≤ 900 ∧
    (logger_get_short_term_log_items (short_term_state es) max).length =
      min (short_term_state es).count max ∧
    (List.Pairwise (fun a b : log_entry_short_term_p1_data_t =>
        a.timestamp ≤ b.timestamp) es →
      List.Pairwise (fun a b : log_entry_short_term_p1_data_t =>
        a.timestamp ≤ b.timestamp)
        (logger_get_short_term_log_items (short_term_state es) max)) := by
  have hc := short_term_state_count es
  refine ⟨by omega, ?_, ?_⟩
  · rw [short_term_get_spec es max, List.length_drop, hc]
    omega
  · intro hsorted
    rw [short_term_get_spec es max]
    exact hsorted.sublist (List.drop_sublist _ _)

/-- Witness for C6: the invariants at a concrete two-entry history with
non-decreasing timestamps. -/
theorem C6_witness :
    (short_term_state [⟨10, 0, 0⟩, ⟨20, 0, 0⟩]).count ≤ 900 ∧
    (logger_get_short_term_log_items
      (short_term_state [⟨10, 0, 0⟩, ⟨20, (0 : ℚ), 0⟩]) 2).length =
      min (short_term_state [⟨10, 0, 0⟩, ⟨20, 0, 0⟩]).count 2 ∧
    List.Pairwise (fun a b : log_entry_short_term_p1_data_t =>
        a.timestamp ≤ b.timestamp)
      (logger_get_short_term_log_items
        (short_term_state [⟨10, 0, 0⟩, ⟨20, 0, 0⟩]) 2) :=
  ⟨(C6_short_term_ring_invariants [⟨10, 0, 0⟩, ⟨20, 0, 0⟩] 2).1,
   (C6_short_term_ring_invariants [⟨10, 0, 0⟩, ⟨20, 0, 0⟩] 2).2.1,
   (C6_short_term_ring_invariants [⟨10, 0, 0⟩, ⟨20, 0, 0⟩] 2).2.2 (by decide)⟩

/-- C7. On the short-term log `[1.0, 2.0, 3.0]` at timestamps
`[0, 60, 120]` (the quarter-hour alignment entry at t = 0), the
linear-regression predictor computes slope
`(Σxy − Σx·ȳ) / (Σxx − Σx·x̄) = 1/60`, predicted value
`3.0 + (1/60)·(900 − 120) = 16.0`, and predicted timestamp `E = 900`
(exact-rational float model). -/
theorem C7_linear_regression_example :
    predict_peak_linear_regression [⟨0, 1, 0⟩, ⟨60, 2, 0⟩, ⟨120, 3, 0⟩] =
      { value := some 16, timestamp := 900 } ∧
    lr_slope [⟨0, 1, 0⟩, ⟨60, 2, 0⟩, ⟨120, 3, 0⟩] = some (1 / 60) := by
  have hs : lr_slope [⟨0, 1, 0⟩, ⟨60, 2, 0⟩, ⟨120, 3, 0⟩] = some (1 / 60) := by
    simp [lr_slope, lr_step, u32, fadd, fsub, fmul, fdiv, List.foldl]
    norm_num
  refine ⟨?_, hs⟩
  simp [predict_peak_linear_regression, hs, fadd, fmul,
    get_timestamp_at_end_of_quarter_hour, tm_min_of, tm_sec_of]
  norm_num

/-- C8 counterexample: on the log `[t=899, t=900]` the alignment index
is 1 (t=900 sits on a quarter boundary, t=899 does not), so the claim
expects the committed timestamp `E = 1800` for both methods; the
weighted-average method, however, is called on the whole log and
commits the end of the FIRST entry's quarter, 900. -/
theorem C8_counterexample :
    (predict_peak_tick [⟨899, 1, 1⟩, ⟨900, 1, 1⟩] .weighted_average).timestamp ≠
      get_timestamp_at_end_of_quarter_hour
        (([⟨899, (1 : ℚ), 1⟩, ⟨900, 1, 1⟩].getD
          (first_entry_index [⟨899, 1, 1⟩, ⟨900, 1, 1⟩]) st_entry_zero).timestamp) := by
  decide

/-- C8 (amended): on every predictor tick with more than one log entry,
the committed prediction's timestamp is the end-of-quarter timestamp
(zero the seconds, round the minutes up to the next multiple of 15,
carry into the hour on wrap) — computed from the alignment entry `k`
for the linear-regression method, but from the first entry (index 0),
ignoring `k`, for the weighted-average method. -/
theorem C8_prediction_timestamp
    (items : List log_entry_short_term_p1_data_t) (h : 1 < items.length) :
    (predict_peak_tick items .linear_regression).timestamp =
      get_timestamp_at_end_of_quarter_hour
        ((items.getD (first_entry_index items) st_entry_zero).timestamp) ∧
    (predict_peak_tick items .weighted_average).timestamp =
      get_timestamp_at_end_of_quarter_hour
        ((items.getD 0 st_entry_zero).timestamp) := by
  have hne : items ≠ [] := by
    intro h0
    rw [h0] at h
    simp at h
  have hk := first_entry_index_lt items hne
  constructor
  · show (predict_peak_linear_regression
        (items.drop (first_entry_index items))).timestamp = _
    rw [predict_lr_timestamp, headD_drop items _ st_entry_zero hk]
  · show (predict_peak_weighted_average items).timestamp = _
    rw [predict_wa_timestamp]
    cases items with
    | nil => exact absurd rfl hne
    | cons a l => rfl

/-- Witness for C8: the amended statement at the concrete log
`[t=899, t=900]` (alignment index 1). -/
theorem C8_witness :
    (predict_peak_tick [⟨899, 1, 1⟩, ⟨900, (1 : ℚ), 1⟩] .linear_regression).timestamp =
      get_timestamp_at_end_of_quarter_hour
        (([⟨899, 1, 1⟩, ⟨900, 1, 1⟩].getD
          (first_entry_index [⟨899, 1, 1⟩, ⟨900, 1, 1⟩]) st_entry_zero).timestamp) ∧
    (predict_peak_tick [⟨899, 1, 1⟩, ⟨900, 1, 1⟩] .weighted_average).timestamp =
      get_timestamp_at_end_of_quarter_hour
        (([⟨899, 1, 1⟩, ⟨900, 1, 1⟩].getD 0 st_entry_zero).timestamp) :=
  C8_prediction_timestamp [⟨899, 1, 1⟩, ⟨900, 1, 1⟩] (by decide)

/-- Unfolding of `p1_events` on a cons. -/
lemma p1_events_cons (stream : List ℕ) (s : P1Buf) (cur size : ℕ)
    (rest : List ℕ) :
    p1_events stream s cur (size :: rest) =
      ((p1_events stream (process_p1_data s ((stream.drop cur).take size)).1
          (p1_next_cursor stream s cur size) rest).1,
        (process_p1_data s ((stream.drop cur).take size)).2 ++
          (p1_events stream (process_p1_data s ((stream.drop cur).take size)).1
            (p1_next_cursor stream s cur size) rest).2) := rfl

/-- Unfolding of `p1_events` on nil. -/
lemma p1_events_nil (stream : List ℕ) (s : P1Buf) (cur : ℕ) :
    p1_events stream s cur [] = (s, []) := rfl

set_option maxRecDepth 8000 in
/-- C5 counterexample: a stream of two correctly framed 751-byte
telegrams (1502 bytes in total).  Delivered as two 751-byte events, the
first telegram assembles and the second event is dropped by the buffer
check; delivered as a single 1502-byte event, the buffer check drops
everything, so no telegram assembles.  The two delivery schedules of
the same stream yield different telegram sequences, refuting the
unrestricted claim. -/
theorem C5_counterexample :
    (assembled ((47 :: (List.replicate 743 65 ++ 33 :: ([48, 48, 48, 48] ++ [13, 10]))) ++
        (47 :: (List.replicate 743 65 ++ 33 :: ([48, 48, 48, 48] ++ [13, 10]))))
      [751, 751]).length = 1 ∧
    (assembled ((47 :: (List.replicate 743 65 ++ 33 :: ([48, 48, 48, 48] ++ [13, 10]))) ++
        (47 :: (List.replicate 743 65 ++ 33 :: ([48, 48, 48, 48] ++ [13, 10]))))
      [1502]).length = 0 := by
  set T : List ℕ :=
    47 :: (List.replicate 743 65 ++ 33 :: ([48, 48, 48, 48] ++ [13, 10])) with hT
  have hTlen : T.length = 751 := by
    rw [hT]
    simp only [List.length_cons, List.length_append, List.length_replicate,
      List.length_nil]
  have hrun : a_run ⟨.idle, []⟩ T =
      (⟨.idle, []⟩,
        [47 :: (List.replicate 743 65 ++ 33 :: ([48, 48, 48, 48] ++ [13, 0]))]) := by
    rw [hT]
    exact a_run_telegram (List.replicate 743 65) [48, 48, 48, 48]
      (by simp only [List.mem_replicate]; omega) (by decide)
  have habs0 : absOf p1_buf_init = ⟨.idle, []⟩ := by simp [absOf, p1_buf_init]
  obtain ⟨h1, h2, _, h4⟩ := p1_sim_run T p1_buf_init p1_inv_init
  have hcabs : absOf (p1_run p1_buf_init T).1 = ⟨.idle, []⟩ := by
    rw [h1, habs0]
    exact (congrArg Prod.fst hrun).trans rfl
  have hst : (p1_run p1_buf_init T).1.st = .idle := by
    have h5 := congrArg P1Abs.st hcabs
    simp only [absOf] at h5
    exact h5
  have hlen1 : (p1_run p1_buf_init T).1.buf.length = 751 := by
    rw [h4, hTlen]
    rfl
  have hout1 : (p1_run p1_buf_init T).2 =
      [47 :: (List.replicate 743 65 ++ 33 :: ([48, 48, 48, 48] ++ [13, 0]))] := by
    rw [h2, habs0]
    exact (congrArg Prod.snd hrun).trans rfl
  have hproc1 : process_p1_data p1_buf_init T =
      ((p1_run p1_buf_init T).1,
        [47 :: (List.replicate 743 65 ++ 33 :: ([48, 48, 48, 48] ++ [13, 0]))]) := by
    unfold process_p1_data
    rw [if_neg (by rw [hTlen]; simp [p1_buf_init])]
    unfold p1_compact
    rw [if_neg (by rw [hst]; simp)]
    rw [hout1]
  have hchunk1 : ((T ++ T).drop 0).take 751 = T := by
    rw [List.drop_zero, ← hTlen, List.take_left]
  have hchunk2 : ((T ++ T).drop 751).take 751 = T := by
    rw [← hTlen, List.drop_left, List.take_length]
  have hcur1 : p1_next_cursor (T ++ T) p1_buf_init 0 751 = 751 := by
    unfold p1_next_cursor
    rw [hchunk1, hTlen]
    simp [p1_buf_init]
  constructor
  · show (p1_events (T ++ T) p1_buf_init 0 [751, 751]).2.length = 1
    rw [p1_events_cons, hchunk1, hcur1, hproc1]
    dsimp only
    rw [p1_events_cons, hchunk2]
    have hof2 : process_p1_data (p1_run p1_buf_init T).1 T = (p1_buf_init, []) := by
      unfold process_p1_data
      rw [if_pos (by rw [hlen1, hTlen]; omega)]
    rw [hof2, p1_events_nil]
    simp only [List.append_nil]
    rfl
  · show (p1_events (T ++ T) p1_buf_init 0 [1502]).2.length = 0
    rw [p1_events_cons]
    have hchunk : ((T ++ T).drop 0).take 1502 = T ++ T := by
      rw [List.drop_zero]
      rw [show (1502 : ℕ) = (T ++ T).length from by simp [hTlen]]
      exact List.take_length _
    rw [hchunk]
    have hof : process_p1_data p1_buf_init (T ++ T) = (p1_buf_init, []) := by
      unfold process_p1_data
      rw [if_pos (by simp [p1_buf_init, hTlen])]
    rw [hof, p1_events_nil]
    rfl

/-- C5 (amended): for every serial byte stream that fits the 1500-byte
working buffer and every partition of it into successive UART data
events, the frame assembler yields the same telegram sequence as when
the whole stream is delivered in a single event.  (Without the buffer
bound the claim fails: see the counterexample, where the working buffer
is never reset after a completed telegram and a later event overflows
it depending on the event boundaries.) -/
theorem C5_split_delivery_equivalence (stream : List ℕ) (sizes : List ℕ)
    (hsum : sizes.sum = stream.length) (hfit : stream.length ≤ 1500) :
    assembled stream sizes = assembled stream [stream.length] := by
  rw [assembled_of_fits stream sizes hsum hfit,
    assembled_of_fits stream [stream.length] (by simp) hfit]

/-- Witness for C5: a 9-byte telegram delivered as 4+5 bytes assembles
exactly as in a single 9-byte event. -/
theorem C5_witness :
    assembled (strBytes ("/A!81C1") ++ [13, 10]) [4, 5] =
      assembled (strBytes ("/A!81C1") ++ [13, 10]) [9] :=
  C5_split_delivery_equivalence (strBytes ("/A!81C1") ++ [13, 10]) [4, 5]
    (by decide) (by decide)

/-- Test for the snapshot-commit action. -/
def isCommit : PAction → Bool
  | .commit _ => true
  | .edge => false

/-- Test for the "telegram available" edge action. -/
def isEdge : PAction → Bool
  | .commit _ => false
  | .edge => true

/-- Unfolding of `parserRun` on a cons. -/
lemma parserRun_cons (p1 : emucs_p1_data_t) (t : List ℕ) (ts : List (List ℕ)) :
    parserRun p1 (t :: ts) =
      ((parserRun (parse_telegram_step p1 t).1 ts).1,
        (parse_telegram_step p1 t).2 ++ (parserRun (parse_telegram_step p1 t).1 ts).2) := rfl

/-- Unfolding of `parserRun` on nil. -/
lemma parserRun_nil (p1 : emucs_p1_data_t) : parserRun p1 [] = (p1, []) := rfl

/-- Dropping the final `'\n'` of a framed telegram and appending the
NUL that overwrites it. -/
lemma framed_dropLast (mid c4 : List ℕ) :
    (47 :: (mid ++ 33 :: (c4 ++ [13, 10]))).dropLast ++ [0] =
      47 :: (mid ++ 33 :: (c4 ++ [13, 0])) := by
  have h : (47 :: (mid ++ 33 :: (c4 ++ [13, 10]))) =
      (47 :: (mid ++ 33 :: (c4 ++ [13]))) ++ [10] := by simp
  rw [h, List.dropLast_concat]
  simp

/-- A stream holding one correctly framed telegram between junk free of
`'/'` assembles, in a single event, exactly that telegram (its final
`'\n'` replaced by NUL). -/
lemma single_telegram_emissions (pre T post : List ℕ)
    (hpre : 47 ∉ pre) (hpost : 47 ∉ post) (hT : wellFramed T)
    (hfit : (pre ++ T ++ post).length ≤ 1500) :
    assembled (pre ++ T ++ post) [(pre ++ T ++ post).length] =
      [T.dropLast ++ [0]] := by
  rw [assembled_of_fits _ _ (by simp) hfit]
  obtain ⟨mid, c4, hTe, hmid, hc4, hlen4⟩ := hT
  subst hTe
  rw [show pre ++ (47 :: (mid ++ 33 :: (c4 ++ [13, 10]))) ++ post =
    pre ++ ((47 :: (mid ++ 33 :: (c4 ++ [13, 10]))) ++ post) from by
      simp [List.append_assoc]]
  rw [a_run_append pre _ ⟨.idle, []⟩, a_run_idle pre [] hpre]
  dsimp only
  rw [a_run_append _ post ⟨.idle, []⟩, a_run_telegram mid c4 hmid hc4]
  dsimp only
  rw [a_run_idle post [] hpost]
  rw [framed_dropLast]
  simp

/-- C1.  For every byte stream that contains one correctly framed
telegram with a valid CRC (junk before and after it holding no further
frame start), processing the stream produces exactly one atomic
replacement of the current telegram record and exactly one "telegram
available" edge, and the commit is ordered before the edge in the
action trace (whole stream delivered as one event, fitting the working
buffer; the edge signalling itself is modelled from the spec, see
`parse_telegram_step`). -/
theorem C1_valid_telegram_commits_once_then_edge
    (pre T post : List ℕ) (hpre : 47 ∉ pre) (hpost : 47 ∉ post)
    (hT : wellFramed T)
    (hcrc : check_telegram_crc (T.dropLast ++ [0]) = true)
    (hfit : (pre ++ T ++ post).length ≤ 1500) :
    p1_pipeline (pre ++ T ++ post) [(pre ++ T ++ post).length] =
      [.commit (parseFields (T.dropLast ++ [0])), .edge] ∧
    ((p1_pipeline (pre ++ T ++ post) [(pre ++ T ++ post).length]).countP isCommit) = 1 ∧
    ((p1_pipeline (pre ++ T ++ post) [(pre ++ T ++ post).length]).countP isEdge) = 1 := by
  have htrace : p1_pipeline (pre ++ T ++ post) [(pre ++ T ++ post).length] =
      [.commit (parseFields (T.dropLast ++ [0])), .edge] := by
    unfold p1_pipeline
    rw [single_telegram_emissions pre T post hpre hpost hT hfit]
    rw [parserRun_cons, parse_telegram_step_ok p1_zero _ hcrc]
    rw [parserRun_nil]
    rfl
  refine ⟨htrace, ?_, ?_⟩ <;> rw [htrace] <;> rfl

/-- Witness for C1: the 9-byte telegram `"/A!81C1\r\n"` (CRC16 of
`"/A!"` is `81C1`) between one junk byte on each side. -/
theorem C1_witness :
    p1_pipeline ([120] ++ (47 :: ([65] ++ 33 :: ([56, 49, 67, 49] ++ [13, 10]))) ++ [121])
      [([120] ++ (47 :: ([65] ++ 33 :: ([56, 49, 67, 49] ++ [13, 10]))) ++ [121]).length] =
      [.commit (parseFields ((47 :: ([65] ++ 33 :: ([56, 49, 67, 49] ++ [13, 10]))).dropLast
        ++ [0])), .edge] ∧
    (p1_pipeline ([120] ++ (47 :: ([65] ++ 33 :: ([56, 49, 67, 49] ++ [13, 10]))) ++ [121])
      [([120] ++ (47 :: ([65] ++ 33 :: ([56, 49, 67, 49] ++ [13, 10]))) ++ [121]).length]).countP
      isCommit = 1 ∧
    (p1_pipeline ([120] ++ (47 :: ([65] ++ 33 :: ([56, 49, 67, 49] ++ [13, 10]))) ++ [121])
      [([120] ++ (47 :: ([65] ++ 33 :: ([56, 49, 67, 49] ++ [13, 10]))) ++ [121]).length]).countP
      isEdge = 1 :=
  C1_valid_telegram_commits_once_then_edge [120] _ [121]
    (by decide) (by decide)
    ⟨[65], [56, 49, 67, 49], rfl, by decide, by decide, rfl⟩
    (by decide) (by decide)

/-- C2.  For every frame handed to the parser (byte-valued, at least 8
bytes): the CRC check succeeds exactly when the four bytes at
`size − 6` equal the four uppercase hex digits of the spec's CRC16
(polynomial `0xA001`, initial value 0, no final XOR, LSB-first bit
processing) over `[0, size − 6)`; on failure the published snapshot is
left completely unchanged and no action fires; on success the frame is
parsed and committed. -/
theorem C2_crc_gate (t : List ℕ) (p1 : emucs_p1_data_t)
    (hlen : 8 ≤ t.length) (hbytes : ∀ b ∈ t, b < 256) :
    (check_telegram_crc t = true ↔
      (t.drop (t.length - 6)).take 4 = hex4 (crc16_spec (t.take (t.length - 6)))) ∧
    (check_telegram_crc t = false → parse_telegram_step p1 t = (p1, [])) ∧
    (check_telegram_crc t = true →
      parse_telegram_step p1 t =
        (parseFields t, [.commit (parseFields t), .edge])) := by
  refine ⟨?_, parse_telegram_step_fail p1 t, parse_telegram_step_ok p1 t⟩
  unfold check_telegram_crc
  rw [crc16_eq_spec (t.take (t.length - 6))
    (fun b hb => hbytes b (List.take_subset _ _ hb))]
  exact decide_eq_true_iff

/-- Witness for C2: the telegram `"/A!81C1\r\n"` against the zero
snapshot. -/
theorem C2_witness :
    (check_telegram_crc (strBytes ("/A!81C1") ++ [13, 10]) = true ↔
      ((strBytes ("/A!81C1") ++ [13, 10]).drop
          ((strBytes ("/A!81C1") ++ [13, 10]).length - 6)).take 4 =
        hex4 (crc16_spec ((strBytes ("/A!81C1") ++ [13, 10]).take
          ((strBytes ("/A!81C1") ++ [13, 10]).length - 6)))) ∧
    (check_telegram_crc (strBytes ("/A!81C1") ++ [13, 10]) = false →
      parse_telegram_step p1_zero (strBytes ("/A!81C1") ++ [13, 10]) = (p1_zero, [])) ∧
    (check_telegram_crc (strBytes ("/A!81C1") ++ [13, 10]) = true →
      parse_telegram_step p1_zero (strBytes ("/A!81C1") ++ [13, 10]) =
        (parseFields (strBytes ("/A!81C1") ++ [13, 10]),
          [.commit (parseFields (strBytes ("/A!81C1") ++ [13, 10])), .edge])) :=
  C2_crc_gate (strBytes ("/A!81C1") ++ [13, 10]) p1_zero (by decide) (by decide)

/-- Modelled from the spec: "each reading is the kWh value scaled into
an integer (×1000, truncated)" — the reading a long-term log entry is
supposed to store, per §3 of the spec. -/
def spec_scaled_reading (q : ℚ) : ℕ := Int.toNat ⌊q * 1000⌋

/-- C9 counterexample: a snapshot with 100.0 kWh on delivered tariff 1.
The claim promises the stored reading `⌊100.0 × 1000⌋ = 100000`; the
`uint16_t` cast in `log_long_term_p1_date` stores
`100000 mod 2^16 = 34464` instead. -/
theorem C9_counterexample :
    (log_long_term_p1_date
      { p1_zero with electricity_delivered_tariff1 := 100 }).electricity_delivered_tariff1
      = 34464 ∧
    spec_scaled_reading (100 : ℚ) = 100000 ∧ (34464 : ℕ) ≠ 100000 := by
  refine ⟨?_, ?_, by decide⟩
  · show cast_u16 ((100 : ℚ) * 1000) = 34464
    unfold cast_u16
    norm_num
    decide
  · unfold spec_scaled_reading
    norm_num
    decide

/-- C9 (amended): the long-term log entry built from a committed
snapshot stores, in each of its four reading fields, the snapshot's
kWh value multiplied by 1000, truncated to an integer, and reduced
mod `2^16` (the value passes through a `uint16_t` cast); whenever the
scaled value fits 16 bits the stored reading equals the spec's scaled
integer exactly.  The entry's timestamp is the snapshot's. -/
theorem C9_long_term_scaled_readings (p1 : emucs_p1_data_t)
    (h1 : spec_scaled_reading p1.electricity_delivered_tariff1 < 65536)
    (h2 : spec_scaled_reading p1.electricity_delivered_tariff2 < 65536)
    (h3 : spec_scaled_reading p1.electricity_returned_tariff1 < 65536)
    (h4 : spec_scaled_reading p1.electricity_returned_tariff2 < 65536) :
    (log_long_term_p1_date p1).timestamp = p1.msg_timestamp ∧
    (log_long_term_p1_date p1).electricity_delivered_tariff1 =
      spec_scaled_reading p1.electricity_delivered_tariff1 ∧
    (log_long_term_p1_date p1).electricity_delivered_tariff2 =
      spec_scaled_reading p1.electricity_delivered_tariff2 ∧
    (log_long_term_p1_date p1).electricity_returned_tariff1 =
      spec_scaled_reading p1.electricity_returned_tariff1 ∧
    (log_long_term_p1_date p1).electricity_returned_tariff2 =
      spec_scaled_reading p1.electricity_returned_tariff2 := by
  refine ⟨rfl, ?_, ?_, ?_, ?_⟩ <;>
    · show Int.toNat ⌊_ * (1000 : ℚ)⌋ % 65536 = _
      exact Nat.mod_eq_of_lt (by assumption)

/-- Witness for C9: a snapshot reading 11 kWh on each register
(scaled reading 11000, fitting 16 bits). -/
theorem C9_witness :
    (log_long_term_p1_date { p1_zero with
        electricity_delivered_tariff1 := 11,
        electricity_delivered_tariff2 := 11,
        electricity_returned_tariff1 := 11,
        electricity_returned_tariff2 := 11 }).timestamp =
      ({ p1_zero with
        electricity_delivered_tariff1 := 11,
        electricity_delivered_tariff2 := 11,
        electricity_returned_tariff1 := 11,
        electricity_returned_tariff2 := (11 : ℚ) }).msg_timestamp ∧
    (log_long_term_p1_date { p1_zero with
        electricity_delivered_tariff1 := 11,
        electricity_delivered_tariff2 := 11,
        electricity_returned_tariff1 := 11,
        electricity_returned_tariff2 := 11 }).electricity_delivered_tariff1 =
      spec_scaled_reading 11 ∧
    (log_long_term_p1_date { p1_zero with
        electricity_delivered_tariff1 := 11,
        electricity_delivered_tariff2 := 11,
        electricity_returned_tariff1 := 11,
        electricity_returned_tariff2 := 11 }).electricity_delivered_tariff2 =
      spec_scaled_reading 11 ∧
    (log_long_term_p1_date { p1_zero with
        electricity_delivered_tariff1 := 11,
        electricity_delivered_tariff2 := 11,
        electricity_returned_tariff1 := 11,
        electricity_returned_tariff2 := 11 }).electricity_returned_tariff1 =
      spec_scaled_reading 11 ∧
    (log_long_term_p1_date { p1_zero with
        electricity_delivered_tariff1 := 11,
        electricity_delivered_tariff2 := 11,
        electricity_returned_tariff1 := 11,
        electricity_returned_tariff2 := 11 }).electricity_returned_tariff2 =
      spec_scaled_reading 11 :=
  C9_long_term_scaled_readings _
    (by unfold spec_scaled_reading; norm_num)
    (by unfold spec_scaled_reading; norm_num)
    (by unfold spec_scaled_reading; norm_num)
    (by unfold spec_scaled_reading; norm_num)

/-- A concrete `0-0:98.1.0` telegram line whose month count reads `258`
and which carries three complete entries. -/
def year_line_258 : List ℕ :=
  strBytes ("0-0:98.1.0(258)(1-0:1.6.0)(1-0:1.6.0)(230101000000W)(230105123000W)(02.100*kW)(230201000000W)(230205093000W)(03.800*kW)(230301000000W)(230305180000W)(04.200*kW)")

/-- C10 counterexample: on the text `(4294967296)` the claim's reading
"the numeric value reduced mod 2^16" predicts `4294967296 mod 2^16 = 0`,
but `strtoul` clamps out-of-range input to `ULONG_MAX = 2^32 − 1`
first, so `get_uint32_between_chars` yields `65535`. -/
theorem C10_counterexample :
    get_uint32_between_chars (strBytes ("(4294967296)")) 40 41 = 65535 ∧
    4294967296 % 65536 = 0 ∧ (65535 : ℕ) ≠ 4294967296 % 65536 := by
  decide

/-- C10 (amended).  On an all-digit field of any length, the extracted
span is cut to its first ten characters by the 11-byte buffer of
`get_uint32_between_chars` before `strtoul` runs, `strtoul` clamps a
ten-digit value of `2^32` or more at `2^32 − 1`, and the `uint16_t`
intermediate reduces the result mod `2^16`: the return value is
`min(value of the first 10 digits, 2^32 − 1) mod 2^16`.  When the field
has at most ten digits and value below `2^32`, that is just the value
mod `2^16`; an eleven-digit field such as `12345678901` yields
`1234567890 mod 2^16 = 722` (not a clamp).  Concretely: a
tariff-indicator or breaker-state line carrying `70000` stores `4464`;
and the `0-0:98.1.0` month count additionally passes through a
`uint8_t`, so a count of `258` writes only year-peak entries 0 and 1
(timestamps of the second timestamp group of each entry), leaving
entry 2 zeroed. -/
theorem C10_uint16_truncation_of_u32_fields
    (l1 s0 l2 : List ℕ) (h1 : 40 ∉ l1)
    (hdig : ∀ c ∈ s0, 48 ≤ c ∧ c ≤ 57) :
    get_uint32_between_chars (l1 ++ 40 :: (s0 ++ 41 :: l2)) 40 41
      = min (digitsVal (s0.take 10)) 4294967295 % 65536 ∧
    (s0.length ≤ 10 → digitsVal s0 < 4294967296 →
      get_uint32_between_chars (l1 ++ 40 :: (s0 ++ 41 :: l2)) 40 41
        = digitsVal s0 % 65536) ∧
    get_uint32_between_chars (strBytes ("(12345678901)")) 40 41 = 722 ∧
    (update_line p1_zero (strBytes ("0-0:96.14.0(70000)"))).tariff_indicator = 4464 ∧
    (update_line p1_zero (strBytes ("0-0:96.3.10(70000)"))).breaker_state = 4464 ∧
    ((update_line p1_zero year_line_258).max_demand_year.getD 0
      max_demand_zero).timestamp = 1672921800 ∧
    ((update_line p1_zero year_line_258).max_demand_year.getD 1
      max_demand_zero).timestamp = 1675589400 ∧
    ((update_line p1_zero year_line_258).max_demand_year.getD 2
      max_demand_zero).timestamp = 0 :=
  ⟨get_uint32_between_chars_trunc l1 s0 l2 h1 hdig,
    fun hlen hv => get_uint32_between_chars_spec l1 s0 l2 h1 hdig hlen hv,
    by decide, by decide, by decide, by decide, by decide, by decide⟩

/-- Witness for C10: the digit string `"55"` between parentheses. -/
theorem C10_witness :
    get_uint32_between_chars ([] ++ 40 :: ([53, 53] ++ 41 :: [])) 40 41
      = min (digitsVal ([53, 53].take 10)) 4294967295 % 65536 ∧
    (([53, 53] : List ℕ).length ≤ 10 → digitsVal [53, 53] < 4294967296 →
      get_uint32_between_chars ([] ++ 40 :: ([53, 53] ++ 41 :: [])) 40 41
        = digitsVal [53, 53] % 65536) ∧
    get_uint32_between_chars (strBytes ("(12345678901)")) 40 41 = 722 ∧
    (update_line p1_zero (strBytes ("0-0:96.14.0(70000)"))).tariff_indicator = 4464 ∧
    (update_line p1_zero (strBytes ("0-0:96.3.10(70000)"))).breaker_state = 4464 ∧
    ((update_line p1_zero year_line_258).max_demand_year.getD 0
      max_demand_zero).timestamp = 1672921800 ∧
    ((update_line p1_zero year_line_258).max_demand_year.getD 1
      max_demand_zero).timestamp = 1675589400 ∧
    ((update_line p1_zero year_line_258).max_demand_year.getD 2
      max_demand_zero).timestamp = 0 :=
  C10_uint16_truncation_of_u32_fields [] [53, 53] []
    (by decide) (by decide)

end Kwartiwi
